import Mathlib

/-!
Flocking-Example: a shallow embedding of `main2.cpp`.

The simulation core of `main2.cpp` (`move_agent`, `distance`, `update_agent`
and the per-frame loop of `main`) is embedded as pure functions.

* C `float` values are read as elements of a linearly ordered field `F` and `sqrtf` as a
  function `sqrt : F → F`, so every definition is computable. Theorems that depend on
  arithmetic instantiate `F` with the real numbers and `sqrt` with `Real.sqrt`, i.e. the
  program is read in exact real arithmetic (no rounding); the frame theorems hold for any
  `F` and any `sqrt`.
* A second embedding (`update_agent32`, `move_agent32`, `tick32`) reads the same statements in
  IEEE 754 binary32, every operation rounded to nearest, ties to even. It decides the claims
  that exact arithmetic and the program answer differently.
* The agent array is a `List (Agent F)`; a pointer `&agents[i]` is the index `i`,
  so the pointer test `other == agent` is the index test `i = self`.
* In-place mutation is explicit state passing: each operation returns the new array.
-/

namespace Flocking

/-! Constants (main2.cpp lines 7-14) -/

def WINDOW_WIDTH : Int := 1900
def WINDOW_HEIGHT : Int := 1200
def AGENT_COUNT : Nat := 100

section Embedding

variable {F : Type} [LinearOrderedField F]

def AGENT_SPEED : F := 2
def SEPARATION_DISTANCE : F := 20
def ALIGNMENT_DISTANCE : F := 50
def COHESION_DISTANCE : F := 100
/-- The literal `1.55f`, read as the exact decimal 155/100. -/
def CURSOR_ATTRACTION_FACTOR : F := 155 / 100

/-! Data model (lines 16-23) -/

structure Agent (F : Type) where
  x : F
  y : F
  vx : F
  vy : F

structure Cursor where
  x : Int
  y : Int

/-! `move_agent` (lines 25-34) -/

/-- The four assignments and four guarded wrap statements of `move_agent`, in source order. -/
def move_agent (agent : Agent F) : Agent F :=
  let a1 : Agent F := { agent with x := agent.x + agent.vx }
  let a2 : Agent F := { a1 with y := a1.y + a1.vy }
  let a3 : Agent F := if a2.x < 0 then { a2 with x := a2.x + (WINDOW_WIDTH : F) } else a2
  let a4 : Agent F := if a3.x > (WINDOW_WIDTH : F) then { a3 with x := a3.x - (WINDOW_WIDTH : F) } else a3
  let a5 : Agent F := if a4.y < 0 then { a4 with y := a4.y + (WINDOW_HEIGHT : F) } else a4
  let a6 : Agent F := if a5.y > (WINDOW_HEIGHT : F) then { a5 with y := a5.y - (WINDOW_HEIGHT : F) } else a5
  a6

/-! `distance` (lines 47-51) -/

def distance (sqrt : F → F) (a b : Agent F) : F :=
  let dx := a.x - b.x
  let dy := a.y - b.y
  sqrt (dx * dx + dy * dy)

/-! `update_agent` (lines 53-133) -/

/-- The local accumulators of `update_agent` that the neighbour loop writes. -/
structure Accum (F : Type) where
  sx : F
  sy : F
  ax : F
  ay : F
  cx : F
  cy : F
  alignment_count : Nat
  cohesion_count : Nat

/-- Lines 55-62: all accumulators start at zero. -/
def Accum.init : Accum F := ⟨0, 0, 0, 0, 0, 0, 0, 0⟩

/-- Lines 68-82: the loop body once `other` is known not to be `agent`. -/
def accumulate (sqrt : F → F) (agent : Agent F) (acc : Accum F) (other : Agent F) : Accum F :=
  let d := distance sqrt agent other
  let acc1 : Accum F :=
    if d < SEPARATION_DISTANCE then
      { acc with sx := acc.sx + (agent.x - other.x), sy := acc.sy + (agent.y - other.y) }
    else acc
  let acc2 : Accum F :=
    if d < ALIGNMENT_DISTANCE then
      { acc1 with ax := acc1.ax + other.vx, ay := acc1.ay + other.vy,
                  alignment_count := acc1.alignment_count + 1 }
    else acc1
  let acc3 : Accum F :=
    if d < COHESION_DISTANCE then
      { acc2 with cx := acc2.cx + other.x, cy := acc2.cy + other.y,
                  cohesion_count := acc2.cohesion_count + 1 }
    else acc2
  acc3

/-- One iteration of the loop at lines 64-83, for loop index `i` and `other = agents[i]`;
`if (other == agent) continue;` is the index test. -/
def scan_body (sqrt : F → F) (agent : Agent F) (self : Nat) (acc : Accum F)
    (i : Nat) (other : Agent F) : Accum F :=
  if i = self then acc else accumulate sqrt agent acc other

/-- The loop at lines 64-83, started at index `i` over the remaining array suffix. -/
def scan_loop (sqrt : F → F) (agent : Agent F) (self : Nat) :
    Nat → List (Agent F) → Accum F → Accum F
  | _, [], acc => acc
  | i, other :: rest, acc =>
      scan_loop sqrt agent self (i + 1) rest (scan_body sqrt agent self acc i other)

/-- The whole neighbour loop: `for (int i = 0; i < agent_count; i++)`. -/
def scan (sqrt : F → F) (agent : Agent F) (agents : List (Agent F)) (self : Nat) : Accum F :=
  scan_loop sqrt agent self 0 agents Accum.init

/-- The four steering vectors after normalisation (lines 85-118) together with
`cursor_distance` and `separation_factor` (line 121). -/
structure Steering (F : Type) where
  sx : F
  sy : F
  ax : F
  ay : F
  cx : F
  cy : F
  tx : F
  ty : F
  cursor_distance : F
  separation_factor : F

/-- Lines 85-121, applied to the accumulators left by the loop. -/
def steer (sqrt : F → F) (agent : Agent F) (acc : Accum F) (cursor : Cursor) : Steering F :=
  -- Normalize separation vector
  let separation_length := sqrt (acc.sx * acc.sx + acc.sy * acc.sy)
  let sx := if separation_length > 0 then acc.sx / separation_length else acc.sx
  let sy := if separation_length > 0 then acc.sy / separation_length else acc.sy
  -- Normalize alignment vector
  let ax := if acc.alignment_count > 0 then acc.ax / (acc.alignment_count : F) else acc.ax
  let ay := if acc.alignment_count > 0 then acc.ay / (acc.alignment_count : F) else acc.ay
  -- Normalize cohesion vector
  let cx1 := acc.cx / (acc.cohesion_count : F) - agent.x
  let cy1 := acc.cy / (acc.cohesion_count : F) - agent.y
  let cohesion_length := sqrt (cx1 * cx1 + cy1 * cy1)
  let cx :=
    if acc.cohesion_count > 0 then
      (if cohesion_length > 0 then cx1 / cohesion_length else cx1)
    else acc.cx
  let cy :=
    if acc.cohesion_count > 0 then
      (if cohesion_length > 0 then cy1 / cohesion_length else cy1)
    else acc.cy
  -- Calculate cursor attraction vector
  let tx0 := (cursor.x : F) - agent.x
  let ty0 := (cursor.y : F) - agent.y
  let cursor_distance := sqrt (tx0 * tx0 + ty0 * ty0)
  let tx := if cursor_distance > 0 then tx0 / cursor_distance else tx0
  let ty := if cursor_distance > 0 then ty0 / cursor_distance else ty0
  let separation_factor := 1 + (SEPARATION_DISTANCE - cursor_distance) / SEPARATION_DISTANCE
  { sx := sx, sy := sy, ax := ax, ay := ay, cx := cx, cy := cy, tx := tx, ty := ty,
    cursor_distance := cursor_distance, separation_factor := separation_factor }

/-- Lines 124-125: the velocity after `+=`, before the speed limit. -/
def blend (agent : Agent F) (s : Steering F) : Agent F :=
  { agent with
    vx := agent.vx + (s.separation_factor * s.sx + s.ax + s.cx + CURSOR_ATTRACTION_FACTOR * s.tx)
    vy := agent.vy + (s.separation_factor * s.sy + s.ay + s.cy + CURSOR_ATTRACTION_FACTOR * s.ty) }

/-- Lines 127-132: limit the velocity to `AGENT_SPEED`. -/
def limit_speed (sqrt : F → F) (agent : Agent F) : Agent F :=
  let speed := sqrt (agent.vx * agent.vx + agent.vy * agent.vy)
  if speed > AGENT_SPEED then
    { agent with vx := (agent.vx / speed) * AGENT_SPEED, vy := (agent.vy / speed) * AGENT_SPEED }
  else agent

/-- The steering vectors `update_agent` computes for `agents[self]`. -/
def steering (sqrt : F → F) (agent : Agent F) (agents : List (Agent F)) (self : Nat)
    (cursor : Cursor) : Steering F :=
  steer sqrt agent (scan sqrt agent agents self) cursor

/-- The value `update_agent` leaves in `*agent`, where `agent = &agents[self]`. -/
def updated (sqrt : F → F) (agent : Agent F) (agents : List (Agent F)) (self : Nat)
    (cursor : Cursor) : Agent F :=
  limit_speed sqrt (blend agent (steering sqrt agent agents self cursor))

/-- The call `update_agent(&agents[self], agents, agent_count, cursor)` with
`agent_count = agents.length`, returning the array after the call. -/
def update_agent (sqrt : F → F) (agents : List (Agent F)) (self : Nat) (cursor : Cursor) :
    List (Agent F) :=
  match agents[self]? with
  | none => agents
  | some agent => agents.set self (updated sqrt agent agents self cursor)

/-! The frame loop of `main` (lines 174-179) -/

/-- The call `move_agent(&agents[i])`, returning the array after the call. -/
def move_at (agents : List (Agent F)) (i : Nat) : List (Agent F) :=
  match agents[i]? with
  | none => agents
  | some agent => agents.set i (move_agent agent)

/-- The loop body at lines 176-177 (drawing does not touch the agents). -/
def tick_body (sqrt : F → F) (cursor : Cursor) (agents : List (Agent F)) (i : Nat) :
    List (Agent F) :=
  move_at (update_agent sqrt agents i cursor) i

/-- One frame: the loop at lines 175-179 over every index of the agent array
(the array has exactly `AGENT_COUNT` entries in `main`). -/
def tick (sqrt : F → F) (agents : List (Agent F)) (cursor : Cursor) : List (Agent F) :=
  (List.range agents.length).foldl (tick_body sqrt cursor) agents

/-! The velocity rule in the specification's words

These definitions follow the wording of the specification (sums and means over the other
agents within a radius), not the loop of `update_agent`; they are compared with the
embedding of the source in the refinement theorem for the velocity rule. -/

/-- Euclidean distance between the positions of two agents, written from the specification's
words and independently of the `distance` function of the program. -/
def euclid (sqrt : F → F) (a b : Agent F) : F := sqrt ((a.x - b.x) ^ 2 + (a.y - b.y) ^ 2)

/-- Every other agent `o` (`o != self` by index) whose Euclidean distance from `agent` is
below `radius`. -/
def within (sqrt : F → F) (agent : Agent F) (agents : List (Agent F)) (self : Nat)
    (radius : F) : List (Agent F) :=
  (agents.eraseIdx self).filter (fun o => decide (euclid sqrt agent o < radius))

/-- Euclidean length of a vector. -/
def vec_length (sqrt : F → F) (v : F × F) : F := sqrt (v.1 * v.1 + v.2 * v.2)

/-- Unit-or-zero: the zero vector for the zero vector, otherwise the vector divided by its
length. -/
def unit_or_zero (sqrt : F → F) (v : F × F) : F × F :=
  if v = (0, 0) then (0, 0) else (v.1 / vec_length sqrt v, v.2 / vec_length sqrt v)

/-- S: unit-or-zero of the sum of `self.pos - o.pos` over `d < SEPARATION_DISTANCE`. -/
def spec_S (sqrt : F → F) (agent : Agent F) (agents : List (Agent F)) (self : Nat) : F × F :=
  let near := within sqrt agent agents self SEPARATION_DISTANCE
  unit_or_zero sqrt ((near.map (fun o => agent.x - o.x)).sum, (near.map (fun o => agent.y - o.y)).sum)

/-- A: arithmetic mean of `o.velocity` over `d < ALIGNMENT_DISTANCE`, zero if there is none. -/
def spec_A (sqrt : F → F) (agent : Agent F) (agents : List (Agent F)) (self : Nat) : F × F :=
  let near := within sqrt agent agents self ALIGNMENT_DISTANCE
  if near.length = 0 then (0, 0)
  else ((near.map (fun o => o.vx)).sum / (near.length : F),
        (near.map (fun o => o.vy)).sum / (near.length : F))

/-- C: unit-or-zero of (mean of `o.pos` over `d < COHESION_DISTANCE`, minus `self.pos`),
zero if there is none. -/
def spec_C (sqrt : F → F) (agent : Agent F) (agents : List (Agent F)) (self : Nat) : F × F :=
  let near := within sqrt agent agents self COHESION_DISTANCE
  if near.length = 0 then (0, 0)
  else unit_or_zero sqrt
    ((near.map (fun o => o.x)).sum / (near.length : F) - agent.x,
     (near.map (fun o => o.y)).sum / (near.length : F) - agent.y)

/-- T: unit-or-zero of `cursor - self.pos`. -/
def spec_T (sqrt : F → F) (agent : Agent F) (cursor : Cursor) : F × F :=
  unit_or_zero sqrt ((cursor.x : F) - agent.x, (cursor.y : F) - agent.y)

/-- The factor `f = 1 + (SEPARATION_DISTANCE - |cursor - self.pos|) / SEPARATION_DISTANCE`. -/
def spec_f (sqrt : F → F) (agent : Agent F) (cursor : Cursor) : F :=
  1 + (SEPARATION_DISTANCE -
    vec_length sqrt ((cursor.x : F) - agent.x, (cursor.y : F) - agent.y)) / SEPARATION_DISTANCE

/-- The clamp: rescale to length `AGENT_SPEED` only when the length exceeds `AGENT_SPEED`. -/
def spec_clamp (sqrt : F → F) (w : F × F) : F × F :=
  if vec_length sqrt w > AGENT_SPEED then
    (AGENT_SPEED / vec_length sqrt w * w.1, AGENT_SPEED / vec_length sqrt w * w.2)
  else w

/-- The rule `clamp (v + f*S + A + C + CURSOR_ATTRACTION_FACTOR*T)`. -/
def spec_velocity (sqrt : F → F) (agent : Agent F) (agents : List (Agent F)) (self : Nat)
    (cursor : Cursor) : F × F :=
  let S := spec_S sqrt agent agents self
  let A := spec_A sqrt agent agents self
  let C := spec_C sqrt agent agents self
  let T := spec_T sqrt agent cursor
  let f := spec_f sqrt agent cursor
  spec_clamp sqrt
    (agent.vx + f * S.1 + A.1 + C.1 + CURSOR_ATTRACTION_FACTOR * T.1,
     agent.vy + f * S.2 + A.2 + C.2 + CURSOR_ATTRACTION_FACTOR * T.2)

/-! The batched tick of the specification's overview

`updateAll` then `moveAll`, in the two readings the specification offers: `update_agent`
applied to every agent in place, or every velocity computed from the pre-update snapshot. -/

/-- The `update_agent` call applied to every agent in index order, with no move in between. -/
def updateAll (sqrt : F → F) (agents : List (Agent F)) (cursor : Cursor) : List (Agent F) :=
  (List.range agents.length).foldl (fun as i => update_agent sqrt as i cursor) agents

/-- Every agent's new velocity computed against the pre-update snapshot of all agents. -/
def updateAll_snapshot (sqrt : F → F) (agents : List (Agent F)) (cursor : Cursor) :
    List (Agent F) :=
  agents.mapIdx (fun i agent => updated sqrt agent agents i cursor)

/-- The `move_agent` call applied to every agent. -/
def moveAll (agents : List (Agent F)) : List (Agent F) := agents.map move_agent

def batched_tick (sqrt : F → F) (agents : List (Agent F)) (cursor : Cursor) : List (Agent F) :=
  moveAll (updateAll sqrt agents cursor)

def batched_tick_snapshot (sqrt : F → F) (agents : List (Agent F)) (cursor : Cursor) :
    List (Agent F) :=
  moveAll (updateAll_snapshot sqrt agents cursor)

/-! `update_agent` with every division checked

The same statements as lines 85-132, in the same order and under the same guards, where each
C division reports a zero divisor instead of computing. -/

/-- A division `x / y` that fails when the divisor is zero. -/
def checked_div (x y : F) : Option F := if y = 0 then none else some (x / y)

/-- Lines 85-121 with every `/=` and `/` checked. -/
def steer_checked (sqrt : F → F) (agent : Agent F) (acc : Accum F) (cursor : Cursor) :
    Option (Steering F) :=
  -- Normalize separation vector
  let separation_length := sqrt (acc.sx * acc.sx + acc.sy * acc.sy)
  (if separation_length > 0 then checked_div acc.sx separation_length
    else some acc.sx).bind fun sx =>
  (if separation_length > 0 then checked_div acc.sy separation_length
    else some acc.sy).bind fun sy =>
  -- Normalize alignment vector
  (if acc.alignment_count > 0 then checked_div acc.ax (acc.alignment_count : F)
    else some acc.ax).bind fun ax =>
  (if acc.alignment_count > 0 then checked_div acc.ay (acc.alignment_count : F)
    else some acc.ay).bind fun ay =>
  -- Normalize cohesion vector
  (if acc.cohesion_count > 0 then
      (checked_div acc.cx (acc.cohesion_count : F)).bind fun cx0 =>
      (checked_div acc.cy (acc.cohesion_count : F)).bind fun cy0 =>
        let cx1 := cx0 - agent.x
        let cy1 := cy0 - agent.y
        let cohesion_length := sqrt (cx1 * cx1 + cy1 * cy1)
        if cohesion_length > 0 then
          (checked_div cx1 cohesion_length).bind fun cx2 =>
          (checked_div cy1 cohesion_length).bind fun cy2 => some (cx2, cy2)
        else some (cx1, cy1)
    else some (acc.cx, acc.cy)).bind fun c =>
  -- Calculate cursor attraction vector
  let tx0 := (cursor.x : F) - agent.x
  let ty0 := (cursor.y : F) - agent.y
  let cursor_distance := sqrt (tx0 * tx0 + ty0 * ty0)
  (if cursor_distance > 0 then checked_div tx0 cursor_distance else some tx0).bind fun tx =>
  (if cursor_distance > 0 then checked_div ty0 cursor_distance else some ty0).bind fun ty =>
  (checked_div (SEPARATION_DISTANCE - cursor_distance) SEPARATION_DISTANCE).bind fun q =>
  let separation_factor := 1 + q
  some { sx := sx, sy := sy, ax := ax, ay := ay, cx := c.1, cy := c.2, tx := tx, ty := ty,
         cursor_distance := cursor_distance, separation_factor := separation_factor }

/-- Lines 127-132 with both divisions checked. -/
def limit_speed_checked (sqrt : F → F) (agent : Agent F) : Option (Agent F) :=
  let speed := sqrt (agent.vx * agent.vx + agent.vy * agent.vy)
  if speed > AGENT_SPEED then
    (checked_div agent.vx speed).bind fun qx =>
    (checked_div agent.vy speed).bind fun qy =>
      some { agent with vx := qx * AGENT_SPEED, vy := qy * AGENT_SPEED }
  else some agent

/-- The call `update_agent(&agents[self], agents, agent_count, cursor)` with every division
checked: `none` if some executed division has a zero divisor. -/
def update_agent_checked (sqrt : F → F) (agents : List (Agent F)) (self : Nat)
    (cursor : Cursor) : Option (List (Agent F)) :=
  match agents[self]? with
  | none => some agents
  | some agent =>
    (steer_checked sqrt agent (scan sqrt agent agents self) cursor).bind fun s =>
    (limit_speed_checked sqrt (blend agent s)).bind fun a => some (agents.set self a)

/-! The wrapped distance the toroidal plane would suggest

Not computed anywhere in `main2.cpp`; defined here only to state which pairs of agents are
close across an edge of the window. -/

/-- The body of the initialisation loop for one agent, given the results `r1 .. r4` of its four
`rand()` calls in source order; C `%` on `int` truncates toward zero (`Int.tmod`). -/
def init_agent (r1 r2 r3 r4 : Int) : Agent F :=
  { x := ((Int.tmod r1 WINDOW_WIDTH : Int) : F)
    y := ((Int.tmod r2 WINDOW_HEIGHT : Int) : F)
    vx := ((Int.tmod r3 100 - 50 : Int) : F) / 50
    vy := ((Int.tmod r4 100 - 50 : Int) : F) / 50 }

/-- The initialisation loop: agent `i` consumes the `rand()` results number `4i .. 4i+3`,
where `rand n` is the result of the `n`-th call. -/
def init_agents (rand : Nat → Int) : List (Agent F) :=
  (List.range AGENT_COUNT).map
    (fun i => init_agent (rand (4 * i)) (rand (4 * i + 1)) (rand (4 * i + 2)) (rand (4 * i + 3)))

/-! Binary32 arithmetic

A finite binary32 value `v` is encoded as the integer `v * 2^149`: every finite binary32
value, subnormal or normal, is an integer multiple of `2^-149` with at most 24 significant
binary digits. Each operation computes the exact result and rounds it to the nearest such
value, ties to even (IEEE 754 round-to-nearest-even, every operation rounded to `float`, no
fused multiply-add, `sqrtf` correctly rounded). Overflow and NaN are not modelled. -/

/-- Number of binary digits of `a`, by repeated halving (`fuel` bounds the number of steps). -/
def bits_aux : Nat → Nat → Nat
  | 0, _ => 0
  | fuel + 1, a => if a = 0 then 0 else bits_aux fuel (a / 2) + 1

/-- Number of binary digits of `a`: 0 for 0, otherwise `⌊log2 a⌋ + 1`. -/
def bits (a : Nat) : Nat := bits_aux a a

/-- Round `a / 2^k` to the nearest integer with at most 24 binary digits times a power of
two, ties to even. -/
def round_nat (a k : Nat) : Nat :=
  let s := max (bits a - 24) k
  let q := a >>> s
  let r := a % (1 <<< s)
  let half := 1 <<< (s - 1)
  let up : Nat := if s = 0 then 0 else if r > half ∨ (r = half ∧ q % 2 = 1) then 1 else 0
  (q + up) <<< (s - k)

/-- Signed version of `round_nat`: rounding is symmetric about zero. -/
def round_int (n : Int) (k : Nat) : Int :=
  if n < 0 then -((round_nat n.natAbs k : Nat) : Int) else ((round_nat n.natAbs k : Nat) : Int)

/-- The binary32 sum: the exact sum, rounded. -/
def fadd (a b : Int) : Int := round_int (a + b) 0

/-- The binary32 difference: the exact difference, rounded. -/
def fsub (a b : Int) : Int := round_int (a - b) 0

/-- The binary32 product: the exact product (in units of `2^-298`), rounded. -/
def fmul (a b : Int) : Int := round_int (a * b) 149

/-- The binary32 quotient: 64 extra quotient bits and a sticky bit for the remainder, rounded.
A zero divisor gives 0 here; the program never divides by zero. -/
def fdiv (a b : Int) : Int :=
  let num := a.natAbs <<< 213
  let q := num / b.natAbs
  let sticky : Nat := if num % b.natAbs = 0 then 0 else 1
  let m : Int := ((round_nat (2 * q + sticky) 65 : Nat) : Int)
  if (a < 0 ∧ 0 < b) ∨ (0 < a ∧ b < 0) then -m else m

/-- Integer square root, one result bit per step from bit `i - 1` down to bit 0. -/
def isqrt_aux (n : Nat) : Nat → Nat → Nat
  | 0, res => res
  | i + 1, res =>
    isqrt_aux n i (if (res + 1 <<< i) * (res + 1 <<< i) ≤ n then res + 1 <<< i else res)

/-- The largest `r` with `r * r ≤ n`. -/
def isqrt (n : Nat) : Nat := isqrt_aux n (bits n / 2 + 1) 0

/-- The correctly rounded `sqrtf`: 64 extra root bits and a sticky bit, rounded. -/
def fsqrt (a : Int) : Int :=
  let n := a.toNat <<< 277
  let r := isqrt n
  let sticky : Nat := if r * r = n then 0 else 1
  ((round_nat (2 * r + sticky) 65 : Nat) : Int)

/-- Conversion of a C `int` to `float`. -/
def of_int (n : Int) : Int := round_int (n * 2 ^ 149) 0

/-- The encoded binary32 value `m * 2^(k - 149)`. -/
def enc (m : Int) (k : Nat) : Int := m * 2 ^ k


/-! The program read in binary32

The same statements as in the embedding above, in the same order, with every `float`
operation replaced by its binary32 counterpart and every `int` operand converted. -/

def AGENT_SPEED32 : Int := of_int 2
def SEPARATION_DISTANCE32 : Int := of_int 20
def ALIGNMENT_DISTANCE32 : Int := of_int 50
def COHESION_DISTANCE32 : Int := of_int 100
/-- The literal `1.55f`: the binary32 value nearest to 155/100. -/
def CURSOR_ATTRACTION_FACTOR32 : Int := fdiv (of_int 155) (of_int 100)

structure Agent32 where
  x : Int
  y : Int
  vx : Int
  vy : Int
deriving DecidableEq

def move_agent32 (agent : Agent32) : Agent32 :=
  let a1 : Agent32 := { agent with x := fadd agent.x agent.vx }
  let a2 : Agent32 := { a1 with y := fadd a1.y a1.vy }
  let a3 : Agent32 := if a2.x < 0 then { a2 with x := fadd a2.x (of_int WINDOW_WIDTH) } else a2
  let a4 : Agent32 :=
    if a3.x > of_int WINDOW_WIDTH then { a3 with x := fsub a3.x (of_int WINDOW_WIDTH) } else a3
  let a5 : Agent32 := if a4.y < 0 then { a4 with y := fadd a4.y (of_int WINDOW_HEIGHT) } else a4
  let a6 : Agent32 :=
    if a5.y > of_int WINDOW_HEIGHT then { a5 with y := fsub a5.y (of_int WINDOW_HEIGHT) } else a5
  a6

def distance32 (a b : Agent32) : Int :=
  let dx := fsub a.x b.x
  let dy := fsub a.y b.y
  fsqrt (fadd (fmul dx dx) (fmul dy dy))

structure Accum32 where
  sx : Int
  sy : Int
  ax : Int
  ay : Int
  cx : Int
  cy : Int
  alignment_count : Nat
  cohesion_count : Nat
deriving DecidableEq

def Accum32.init : Accum32 := ⟨0, 0, 0, 0, 0, 0, 0, 0⟩

def accumulate32 (agent : Agent32) (acc : Accum32) (other : Agent32) : Accum32 :=
  let d := distance32 agent other
  let acc1 : Accum32 :=
    if d < SEPARATION_DISTANCE32 then
      { acc with sx := fadd acc.sx (fsub agent.x other.x),
                 sy := fadd acc.sy (fsub agent.y other.y) }
    else acc
  let acc2 : Accum32 :=
    if d < ALIGNMENT_DISTANCE32 then
      { acc1 with ax := fadd acc1.ax other.vx, ay := fadd acc1.ay other.vy,
                  alignment_count := acc1.alignment_count + 1 }
    else acc1
  let acc3 : Accum32 :=
    if d < COHESION_DISTANCE32 then
      { acc2 with cx := fadd acc2.cx other.x, cy := fadd acc2.cy other.y,
                  cohesion_count := acc2.cohesion_count + 1 }
    else acc2
  acc3

def scan_body32 (agent : Agent32) (self : Nat) (acc : Accum32) (i : Nat) (other : Agent32) :
    Accum32 :=
  if i = self then acc else accumulate32 agent acc other

def scan_loop32 (agent : Agent32) (self : Nat) : Nat → List Agent32 → Accum32 → Accum32
  | _, [], acc => acc
  | i, other :: rest, acc => scan_loop32 agent self (i + 1) rest (scan_body32 agent self acc i other)

def scan32 (agent : Agent32) (agents : List Agent32) (self : Nat) : Accum32 :=
  scan_loop32 agent self 0 agents Accum32.init

structure Steering32 where
  sx : Int
  sy : Int
  ax : Int
  ay : Int
  cx : Int
  cy : Int
  tx : Int
  ty : Int
  cursor_distance : Int
  separation_factor : Int
deriving DecidableEq

def steer32 (agent : Agent32) (acc : Accum32) (cursor : Cursor) : Steering32 :=
  let separation_length := fsqrt (fadd (fmul acc.sx acc.sx) (fmul acc.sy acc.sy))
  let sx := if separation_length > 0 then fdiv acc.sx separation_length else acc.sx
  let sy := if separation_length > 0 then fdiv acc.sy separation_length else acc.sy
  let ax := if acc.alignment_count > 0 then fdiv acc.ax (of_int acc.alignment_count) else acc.ax
  let ay := if acc.alignment_count > 0 then fdiv acc.ay (of_int acc.alignment_count) else acc.ay
  let cx1 := fsub (fdiv acc.cx (of_int acc.cohesion_count)) agent.x
  let cy1 := fsub (fdiv acc.cy (of_int acc.cohesion_count)) agent.y
  let cohesion_length := fsqrt (fadd (fmul cx1 cx1) (fmul cy1 cy1))
  let cx :=
    if acc.cohesion_count > 0 then
      (if cohesion_length > 0 then fdiv cx1 cohesion_length else cx1)
    else acc.cx
  let cy :=
    if acc.cohesion_count > 0 then
      (if cohesion_length > 0 then fdiv cy1 cohesion_length else cy1)
    else acc.cy
  let tx0 := fsub (of_int cursor.x) agent.x
  let ty0 := fsub (of_int cursor.y) agent.y
  let cursor_distance := fsqrt (fadd (fmul tx0 tx0) (fmul ty0 ty0))
  let tx := if cursor_distance > 0 then fdiv tx0 cursor_distance else tx0
  let ty := if cursor_distance > 0 then fdiv ty0 cursor_distance else ty0
  let separation_factor :=
    fadd (of_int 1) (fdiv (fsub SEPARATION_DISTANCE32 cursor_distance) SEPARATION_DISTANCE32)
  { sx := sx, sy := sy, ax := ax, ay := ay, cx := cx, cy := cy, tx := tx, ty := ty,
    cursor_distance := cursor_distance, separation_factor := separation_factor }

def blend32 (agent : Agent32) (s : Steering32) : Agent32 :=
  { agent with
    vx := fadd agent.vx
      (fadd (fadd (fadd (fmul s.separation_factor s.sx) s.ax) s.cx)
        (fmul CURSOR_ATTRACTION_FACTOR32 s.tx))
    vy := fadd agent.vy
      (fadd (fadd (fadd (fmul s.separation_factor s.sy) s.ay) s.cy)
        (fmul CURSOR_ATTRACTION_FACTOR32 s.ty)) }

def limit_speed32 (agent : Agent32) : Agent32 :=
  let speed := fsqrt (fadd (fmul agent.vx agent.vx) (fmul agent.vy agent.vy))
  if speed > AGENT_SPEED32 then
    { agent with vx := fmul (fdiv agent.vx speed) AGENT_SPEED32,
                 vy := fmul (fdiv agent.vy speed) AGENT_SPEED32 }
  else agent

def steering32 (agent : Agent32) (agents : List Agent32) (self : Nat) (cursor : Cursor) :
    Steering32 :=
  steer32 agent (scan32 agent agents self) cursor

def updated32 (agent : Agent32) (agents : List Agent32) (self : Nat) (cursor : Cursor) :
    Agent32 :=
  limit_speed32 (blend32 agent (steering32 agent agents self cursor))

def update_agent32 (agents : List Agent32) (self : Nat) (cursor : Cursor) : List Agent32 :=
  match agents[self]? with
  | none => agents
  | some agent => agents.set self (updated32 agent agents self cursor)

def move_at32 (agents : List Agent32) (i : Nat) : List Agent32 :=
  match agents[i]? with
  | none => agents
  | some agent => agents.set i (move_agent32 agent)

def tick_body32 (cursor : Cursor) (agents : List Agent32) (i : Nat) : List Agent32 :=
  move_at32 (update_agent32 agents i cursor) i

def tick32 (agents : List Agent32) (cursor : Cursor) : List Agent32 :=
  (List.range agents.length).foldl (tick_body32 cursor) agents

/-- The number an encoded binary32 value stands for. -/
def value (n : Int) : F := (n : F) / 2 ^ 149

/-- The agent an encoded binary32 agent stands for. -/
def decode (a : Agent32) : Agent F := ⟨value a.x, value a.y, value a.vx, value a.vy⟩

/-! Concrete inputs used by the closed statements below -/

/-- An agent one pixel left of the right edge, moving right at speed 1. -/
def edge_agent : Agent F := ⟨1899, 0, 1, 0⟩

/-- The scenario agent at (0,0), at rest. -/
def agent_a : Agent F := ⟨0, 0, 0, 0⟩

/-- The scenario agent at (10,0), at rest. -/
def agent_b : Agent F := ⟨10, 0, 0, 0⟩

/-- The two-agent scenario: `agent_a` at index 0 and `agent_b` at index 1. -/
def scenario_agents : List (Agent F) := [agent_a, agent_b]

/-- The cursor at the origin. -/
def origin : Cursor := ⟨0, 0⟩

/-- An agent at (0,0) moving right at speed 1. -/
def agent_p : Agent F := ⟨0, 0, 1, 0⟩

/-- An agent at rest at (100,0), exactly `COHESION_DISTANCE` from `agent_p`. -/
def agent_q : Agent F := ⟨100, 0, 0, 0⟩

/-- Two agents exactly `COHESION_DISTANCE` apart: `agent_p` at index 0, `agent_q` at index 1. -/
def barrier_agents : List (Agent F) := [agent_p, agent_q]

/-- A single agent at the origin with velocity (3,4), speed 5. -/
def fast_agent : Agent F := ⟨0, 0, 3, 4⟩

/-- A cursor 50 to the right of the origin, farther than `2 * SEPARATION_DISTANCE`. -/
def far_cursor : Cursor := ⟨50, 0⟩

/-- A `rand()` that always returns 0. -/
def zero_rand : Nat → Int := fun _ => 0

/-- Binary32 agent at (100,0) moving right at speed 1. -/
def near_a : Agent32 := ⟨enc 100 149, 0, enc 1 149, 0⟩

/-- Binary32 agent at rest at (0.10897597670555115, 4.667260646820068), whose exact Euclidean
distance from `near_a` is just above 100. -/
def near_o : Agent32 := ⟨enc 3656627 124, enc 9787955 128, 0, 0⟩

/-- Binary32 agent at rest at the origin. -/
def pair_p : Agent32 := ⟨0, 0, 0, 0⟩

/-- Binary32 agent at rest at (12, 16 - 2^-20), whose exact Euclidean distance from the origin
is just below 20. -/
def pair_q : Agent32 := ⟨enc 12 149, enc 16777215 129, 0, 0⟩

/-- Binary32 agent at the origin with velocity (3,4). -/
def fast32 : Agent32 := ⟨0, 0, enc 3 149, enc 4 149⟩

/-- Binary32 agent at (100,100) with velocity (-4.3608717918396, 0.004457686096429825). -/
def swift32 : Agent32 := ⟨enc 100 149, enc 100 149, enc (-9145411) 128, enc 1196601 121⟩

/-- Binary32 agent at the origin with velocity (-2^-17, -2^-17). -/
def creep32 : Agent32 := ⟨0, 0, enc (-1) 132, enc (-1) 132⟩

end Embedding

/-! Basic facts about the embedding -/

theorem window_width_cast : ((WINDOW_WIDTH : Int) : ℝ) = 1900 := by
  simp [WINDOW_WIDTH]

theorem window_height_cast : ((WINDOW_HEIGHT : Int) : ℝ) = 1200 := by
  simp [WINDOW_HEIGHT]

/-- The four fields of `move_agent`'s result, with the wrap written per coordinate. -/
theorem move_agent_fields (a : Agent ℝ) :
    (move_agent a).x =
        (if (if a.x + a.vx < 0 then a.x + a.vx + 1900 else a.x + a.vx) > 1900
          then (if a.x + a.vx < 0 then a.x + a.vx + 1900 else a.x + a.vx) - 1900
          else (if a.x + a.vx < 0 then a.x + a.vx + 1900 else a.x + a.vx)) ∧
    (move_agent a).y =
        (if (if a.y + a.vy < 0 then a.y + a.vy + 1200 else a.y + a.vy) > 1200
          then (if a.y + a.vy < 0 then a.y + a.vy + 1200 else a.y + a.vy) - 1200
          else (if a.y + a.vy < 0 then a.y + a.vy + 1200 else a.y + a.vy)) ∧
    (move_agent a).vx = a.vx ∧ (move_agent a).vy = a.vy := by
  simp only [move_agent, window_width_cast, window_height_cast]
  refine ⟨?_, ?_, ?_, ?_⟩ <;> split_ifs <;> rfl

/-- A speed of at most `AGENT_SPEED` bounds each velocity component by 2 in absolute value. -/
theorem component_bounds (vx vy : ℝ) (h : Real.sqrt (vx * vx + vy * vy) ≤ 2) :
    (-2 ≤ vx ∧ vx ≤ 2) ∧ (-2 ≤ vy ∧ vy ≤ 2) := by
  have hq : 0 ≤ vx * vx + vy * vy := add_nonneg (mul_self_nonneg vx) (mul_self_nonneg vy)
  have h0 := Real.sqrt_nonneg (vx * vx + vy * vy)
  have h1 := Real.mul_self_sqrt hq
  have h4 : vx * vx + vy * vy ≤ 4 := by nlinarith
  refine ⟨⟨?_, ?_⟩, ⟨?_, ?_⟩⟩ <;> nlinarith [mul_self_nonneg vx, mul_self_nonneg vy]

/-- The value written by the speed limit has speed at most `AGENT_SPEED`. -/
theorem limit_speed_le (a : Agent ℝ) :
    Real.sqrt ((limit_speed Real.sqrt a).vx * (limit_speed Real.sqrt a).vx +
      (limit_speed Real.sqrt a).vy * (limit_speed Real.sqrt a).vy) ≤ 2 := by
  unfold limit_speed
  simp only [AGENT_SPEED]
  split_ifs with h
  · have hq : 0 ≤ a.vx * a.vx + a.vy * a.vy :=
      add_nonneg (mul_self_nonneg a.vx) (mul_self_nonneg a.vy)
    have h1 := Real.mul_self_sqrt hq
    generalize Real.sqrt (a.vx * a.vx + a.vy * a.vy) = s at h h1 ⊢
    have hs : s ≠ 0 := by intro h0; rw [h0] at h; norm_num at h
    have e : a.vx / s * 2 * (a.vx / s * 2) + a.vy / s * 2 * (a.vy / s * 2) = 2 * 2 := by
      field_simp
      linarith
    simp only [e]
    rw [Real.sqrt_mul_self (by norm_num)]
  · exact not_lt.mp h

/-! Frame lemmas, for any field and any `sqrt` -/

section Frame

variable {F : Type} [LinearOrderedField F]

theorem limit_speed_pos (sqrt : F → F) (a : Agent F) :
    (limit_speed sqrt a).x = a.x ∧ (limit_speed sqrt a).y = a.y := by
  simp only [limit_speed]
  constructor <;> split_ifs <;> rfl

theorem updated_pos (sqrt : F → F) (a : Agent F) (agents : List (Agent F)) (self : Nat)
    (cursor : Cursor) :
    (updated sqrt a agents self cursor).x = a.x ∧ (updated sqrt a agents self cursor).y = a.y := by
  unfold updated
  obtain ⟨h1, h2⟩ := limit_speed_pos sqrt (blend a (steering sqrt a agents self cursor))
  exact ⟨h1, h2⟩

theorem update_agent_length (sqrt : F → F) (agents : List (Agent F)) (i : Nat) (cursor : Cursor) :
    (update_agent sqrt agents i cursor).length = agents.length := by
  unfold update_agent
  split <;> simp

theorem update_agent_getElem?_ne (sqrt : F → F) (agents : List (Agent F)) (i j : Nat)
    (cursor : Cursor) (h : i ≠ j) : (update_agent sqrt agents i cursor)[j]? = agents[j]? := by
  unfold update_agent
  split
  · rfl
  · exact List.getElem?_set_ne h

theorem update_agent_getElem?_self (sqrt : F → F) (agents : List (Agent F)) (i : Nat)
    (cursor : Cursor) :
    (update_agent sqrt agents i cursor)[i]? =
      (agents[i]?).map (fun a => updated sqrt a agents i cursor) := by
  unfold update_agent
  cases h : agents[i]? with
  | none => simp [h]
  | some a =>
    have hi : i < agents.length := by
      by_contra hc
      rw [List.getElem?_eq_none (not_lt.mp hc)] at h
      cases h
    simp [List.getElem?_set_self hi]

theorem move_at_length (agents : List (Agent F)) (i : Nat) :
    (move_at agents i).length = agents.length := by
  unfold move_at
  split <;> simp

theorem move_at_getElem?_ne (agents : List (Agent F)) (i j : Nat) (h : i ≠ j) :
    (move_at agents i)[j]? = agents[j]? := by
  unfold move_at
  split
  · rfl
  · exact List.getElem?_set_ne h

theorem move_at_getElem?_self (agents : List (Agent F)) (i : Nat) :
    (move_at agents i)[i]? = (agents[i]?).map move_agent := by
  unfold move_at
  cases h : agents[i]? with
  | none => simp [h]
  | some a =>
    have hi : i < agents.length := by
      by_contra hc
      rw [List.getElem?_eq_none (not_lt.mp hc)] at h
      cases h
    simp [List.getElem?_set_self hi]

theorem tick_body_length (sqrt : F → F) (cursor : Cursor) (agents : List (Agent F)) (i : Nat) :
    (tick_body sqrt cursor agents i).length = agents.length := by
  unfold tick_body
  rw [move_at_length, update_agent_length]

theorem tick_body_getElem?_ne (sqrt : F → F) (cursor : Cursor) (agents : List (Agent F))
    (i j : Nat) (h : i ≠ j) : (tick_body sqrt cursor agents i)[j]? = agents[j]? := by
  unfold tick_body
  rw [move_at_getElem?_ne _ _ _ h, update_agent_getElem?_ne _ _ _ _ _ h]

/-- A loop over indices `0 .. k`: the last iteration runs on the result of the first `k`. -/
theorem fold_succ {α : Type} (f : List α → Nat → List α) (l : List α) (k : Nat) :
    (List.range (k + 1)).foldl f l = f ((List.range k).foldl f l) k := by
  rw [List.range_succ, List.foldl_append]
  rfl

theorem fold_length {α : Type} (f : List α → Nat → List α)
    (hlen : ∀ l i, (f l i).length = l.length) (l : List α) (k : Nat) :
    ((List.range k).foldl f l).length = l.length := by
  induction k with
  | zero => rfl
  | succ k ih => rw [fold_succ, hlen, ih]

/-- If iteration `i` writes index `i` only, iterations `0 .. k-1` leave every index `j ≥ k`
as it was. -/
theorem fold_untouched {α : Type} (f : List α → Nat → List α)
    (hne : ∀ l i j, i ≠ j → (f l i)[j]? = l[j]?) (l : List α) (k j : Nat) (h : k ≤ j) :
    ((List.range k).foldl f l)[j]? = l[j]? := by
  induction k with
  | zero => rfl
  | succ k ih => rw [fold_succ, hne _ _ _ (by omega), ih (by omega)]

/-- If iteration `i` writes index `i` only, an index already processed is not changed by
later iterations. -/
theorem fold_stable {α : Type} (f : List α → Nat → List α)
    (hne : ∀ l i j, i ≠ j → (f l i)[j]? = l[j]?) (l : List α) (k m j : Nat)
    (hj : j < k) (hm : k ≤ m) :
    ((List.range m).foldl f l)[j]? = ((List.range k).foldl f l)[j]? := by
  induction m with
  | zero => omega
  | succ m ih =>
    by_cases hkm : k = m + 1
    · rw [hkm]
    · rw [fold_succ, hne _ _ _ (by omega), ih (by omega)]

/-- The array after the first `k + 1` iterations of the frame loop. -/
theorem entry_succ (sqrt : F → F) (cursor : Cursor) (agents : List (Agent F)) (k : Nat) :
    (List.range (k + 1)).foldl (tick_body sqrt cursor) agents =
      tick_body sqrt cursor ((List.range k).foldl (tick_body sqrt cursor) agents) k :=
  fold_succ _ _ _

theorem entry_length (sqrt : F → F) (cursor : Cursor) (agents : List (Agent F)) (k : Nat) :
    ((List.range k).foldl (tick_body sqrt cursor) agents).length = agents.length :=
  fold_length _ (tick_body_length sqrt cursor) _ _

/-- Iterations `0 .. k-1` of the frame loop leave every index `j ≥ k` as it was before. -/
theorem entry_untouched (sqrt : F → F) (cursor : Cursor) (agents : List (Agent F))
    (k j : Nat) (h : k ≤ j) :
    ((List.range k).foldl (tick_body sqrt cursor) agents)[j]? = agents[j]? :=
  fold_untouched _ (tick_body_getElem?_ne sqrt cursor) _ _ _ h

/-- Once index `j` has been processed, later iterations of the frame loop do not change it. -/
theorem entry_stable (sqrt : F → F) (cursor : Cursor) (agents : List (Agent F))
    (k m j : Nat) (hj : j < k) (hm : k ≤ m) :
    ((List.range m).foldl (tick_body sqrt cursor) agents)[j]? =
      ((List.range k).foldl (tick_body sqrt cursor) agents)[j]? :=
  fold_stable _ (tick_body_getElem?_ne sqrt cursor) _ _ _ _ hj hm

/-- The array the frame loop holds on entry to iteration `i`: post-frame agents below `i`,
pre-frame agents from `i` on. -/
theorem entry_eq_mixed (sqrt : F → F) (cursor : Cursor) (agents : List (Agent F)) (i : Nat) :
    (tick sqrt agents cursor).take i ++ agents.drop i =
      (List.range (min i agents.length)).foldl (tick_body sqrt cursor) agents := by
  apply List.ext_getElem?
  intro j
  have hlen : (tick sqrt agents cursor).length = agents.length := entry_length _ _ _ _
  by_cases hj : j < min i agents.length
  · have hji : j < i := lt_of_lt_of_le hj (min_le_left _ _)
    have hjn : j < agents.length := lt_of_lt_of_le hj (min_le_right _ _)
    rw [List.getElem?_append_left (by simp [hlen]; omega), List.getElem?_take_of_lt hji]
    exact entry_stable sqrt cursor agents _ _ j hj (min_le_right _ _)
  · rw [entry_untouched _ _ _ _ _ (not_lt.mp hj)]
    by_cases hji : j < i
    · have hjn : agents.length ≤ j := by
        rcases Nat.lt_or_ge j agents.length with h | h
        · exact absurd (lt_min hji h) hj
        · exact h
      rw [List.getElem?_eq_none hjn, List.getElem?_eq_none]
      simp [hlen]
      omega
    · have hij : i ≤ j := not_lt.mp hji
      rw [List.getElem?_append_right (by simp; omega), List.getElem?_drop,
        List.length_take, hlen]
      by_cases hin : i ≤ agents.length
      · rw [min_eq_left hin]
        congr 1
        omega
      · rw [List.getElem?_eq_none (by omega), List.getElem?_eq_none (by omega)]

/-- Agent 0 after one frame: updated against the pre-frame array, then moved. -/
theorem tick_first (sqrt : F → F) (agents : List (Agent F)) (cursor : Cursor) :
    (tick sqrt agents cursor)[0]? =
      (agents[0]?).map (fun a => move_agent (updated sqrt a agents 0 cursor)) := by
  rcases Nat.eq_zero_or_pos agents.length with h0 | hpos
  · have hnil : agents = [] := List.length_eq_zero.mp h0
    subst hnil
    rfl
  · have h1 := entry_stable sqrt cursor agents 1 agents.length 0 (by omega) (by omega)
    rw [entry_succ] at h1
    unfold tick
    rw [h1]
    show (tick_body sqrt cursor agents 0)[0]? = _
    unfold tick_body
    rw [move_at_getElem?_self, update_agent_getElem?_self, Option.map_map]
    rfl

theorem updateAll_length (sqrt : F → F) (agents : List (Agent F)) (cursor : Cursor) :
    (updateAll sqrt agents cursor).length = agents.length :=
  fold_length (fun as i => update_agent sqrt as i cursor)
    (fun l i => update_agent_length sqrt l i cursor) _ _

/-- Agent 0 after the in-place `updateAll`: updated against the pre-frame array. -/
theorem updateAll_first (sqrt : F → F) (agents : List (Agent F)) (cursor : Cursor) :
    (updateAll sqrt agents cursor)[0]? =
      (agents[0]?).map (fun a => updated sqrt a agents 0 cursor) := by
  rcases Nat.eq_zero_or_pos agents.length with h0 | hpos
  · have hnil : agents = [] := List.length_eq_zero.mp h0
    subst hnil
    rfl
  · have h1 := fold_stable (fun as i => update_agent sqrt as i cursor)
      (fun l i j h => update_agent_getElem?_ne sqrt l i j cursor h) agents 1 agents.length 0
      (by omega) (by omega)
    rw [fold_succ] at h1
    unfold updateAll
    rw [h1]
    exact update_agent_getElem?_self sqrt agents 0 cursor

/-- The agent at index `i` after one frame: the pre-frame agent `i`, updated against the array
the loop holds on entry to iteration `i` and then moved. -/
theorem tick_entry (sqrt : F → F) (agents : List (Agent F)) (cursor : Cursor) (i : Nat) :
    (tick sqrt agents cursor)[i]? =
      (move_at (update_agent sqrt
        ((tick sqrt agents cursor).take i ++ agents.drop i) i cursor) i)[i]? ∧
    (tick sqrt agents cursor)[i]? =
      (agents[i]?).map (fun a => move_agent
        (updated sqrt a ((tick sqrt agents cursor).take i ++ agents.drop i) i cursor)) := by
  have key : (tick sqrt agents cursor)[i]? =
      (move_at (update_agent sqrt
        ((tick sqrt agents cursor).take i ++ agents.drop i) i cursor) i)[i]? := by
    rw [entry_eq_mixed]
    by_cases hi : i < agents.length
    · rw [min_eq_left (le_of_lt hi)]
      have h1 := entry_stable sqrt cursor agents (i + 1) agents.length i (by omega) (by omega)
      rw [entry_succ] at h1
      exact h1
    · have hlen : (tick sqrt agents cursor).length = agents.length := entry_length _ _ _ _
      rw [List.getElem?_eq_none (by omega), List.getElem?_eq_none]
      rw [move_at_length, update_agent_length, entry_length]
      omega
  refine ⟨key, ?_⟩
  rw [key, move_at_getElem?_self, update_agent_getElem?_self]
  have hmix : ((tick sqrt agents cursor).take i ++ agents.drop i)[i]? = agents[i]? := by
    rw [entry_eq_mixed]
    exact entry_untouched sqrt cursor agents _ i (min_le_left _ _)
  rw [hmix]
  cases agents[i]? <;> rfl

end Frame

/-! The neighbour loop as sums over the other agents -/

section Loop

variable {F : Type} [LinearOrderedField F]

/-- In exact arithmetic the program's `distance` is the Euclidean distance. -/
theorem distance_eq_euclid (sqrt : F → F) (a b : Agent F) :
    distance sqrt a b = euclid sqrt a b := by
  simp only [distance, euclid, pow_two]

theorem within_eq_filter (sqrt : F → F) (agent : Agent F) (agents : List (Agent F)) (self : Nat)
    (radius : F) :
    within sqrt agent agents self radius =
      (agents.eraseIdx self).filter (fun o => decide (distance sqrt agent o < radius)) := by
  unfold within
  congr 1
  funext o
  rw [distance_eq_euclid]

/-- The loop skips exactly the entry at index `self`. -/
theorem scan_loop_eq_foldl (sqrt : F → F) (agent : Agent F) (self : Nat) (l : List (Agent F)) :
    ∀ (i : Nat) (acc : Accum F),
      scan_loop sqrt agent self i l acc =
        (if i ≤ self then l.eraseIdx (self - i) else l).foldl (accumulate sqrt agent) acc := by
  induction l with
  | nil => intro i acc; simp [scan_loop]
  | cons o rest ih =>
    intro i acc
    simp only [scan_loop, scan_body]
    rw [ih]
    rcases Nat.lt_trichotomy i self with h | h | h
    · have e : self - i = (self - (i + 1)) + 1 := by omega
      rw [if_neg (Nat.ne_of_lt h), if_pos (by omega), if_pos (by omega), e, List.eraseIdx_cons_succ]
      rfl
    · subst h
      simp
    · rw [if_neg (by omega), if_neg (by omega), if_neg (by omega)]
      rfl

theorem scan_eq_foldl (sqrt : F → F) (agent : Agent F) (agents : List (Agent F)) (self : Nat) :
    scan sqrt agent agents self =
      (agents.eraseIdx self).foldl (accumulate sqrt agent) Accum.init := by
  unfold scan
  rw [scan_loop_eq_foldl]
  simp

theorem accumulate_fields (sqrt : F → F) (agent : Agent F) (acc : Accum F) (o : Agent F) :
    (accumulate sqrt agent acc o).sx =
        acc.sx + (if distance sqrt agent o < SEPARATION_DISTANCE then agent.x - o.x else 0) ∧
    (accumulate sqrt agent acc o).sy =
        acc.sy + (if distance sqrt agent o < SEPARATION_DISTANCE then agent.y - o.y else 0) ∧
    (accumulate sqrt agent acc o).ax =
        acc.ax + (if distance sqrt agent o < ALIGNMENT_DISTANCE then o.vx else 0) ∧
    (accumulate sqrt agent acc o).ay =
        acc.ay + (if distance sqrt agent o < ALIGNMENT_DISTANCE then o.vy else 0) ∧
    (accumulate sqrt agent acc o).cx =
        acc.cx + (if distance sqrt agent o < COHESION_DISTANCE then o.x else 0) ∧
    (accumulate sqrt agent acc o).cy =
        acc.cy + (if distance sqrt agent o < COHESION_DISTANCE then o.y else 0) ∧
    (accumulate sqrt agent acc o).alignment_count =
        acc.alignment_count + (if distance sqrt agent o < ALIGNMENT_DISTANCE then 1 else 0) ∧
    (accumulate sqrt agent acc o).cohesion_count =
        acc.cohesion_count + (if distance sqrt agent o < COHESION_DISTANCE then 1 else 0) := by
  simp only [accumulate]
  refine ⟨?_, ?_, ?_, ?_, ?_, ?_, ?_, ?_⟩ <;> split_ifs <;> simp

/-- After the loop each accumulator holds its initial value plus the sum, over the scanned
agents within the rule's radius, of the quantity that rule adds. -/
theorem foldl_accumulate (sqrt : F → F) (agent : Agent F) (l : List (Agent F)) :
    ∀ acc : Accum F,
    (l.foldl (accumulate sqrt agent) acc).sx = acc.sx +
      ((l.filter (fun o => decide (distance sqrt agent o < SEPARATION_DISTANCE))).map
        (fun o => agent.x - o.x)).sum ∧
    (l.foldl (accumulate sqrt agent) acc).sy = acc.sy +
      ((l.filter (fun o => decide (distance sqrt agent o < SEPARATION_DISTANCE))).map
        (fun o => agent.y - o.y)).sum ∧
    (l.foldl (accumulate sqrt agent) acc).ax = acc.ax +
      ((l.filter (fun o => decide (distance sqrt agent o < ALIGNMENT_DISTANCE))).map
        (fun o => o.vx)).sum ∧
    (l.foldl (accumulate sqrt agent) acc).ay = acc.ay +
      ((l.filter (fun o => decide (distance sqrt agent o < ALIGNMENT_DISTANCE))).map
        (fun o => o.vy)).sum ∧
    (l.foldl (accumulate sqrt agent) acc).cx = acc.cx +
      ((l.filter (fun o => decide (distance sqrt agent o < COHESION_DISTANCE))).map
        (fun o => o.x)).sum ∧
    (l.foldl (accumulate sqrt agent) acc).cy = acc.cy +
      ((l.filter (fun o => decide (distance sqrt agent o < COHESION_DISTANCE))).map
        (fun o => o.y)).sum ∧
    (l.foldl (accumulate sqrt agent) acc).alignment_count = acc.alignment_count +
      (l.filter (fun o => decide (distance sqrt agent o < ALIGNMENT_DISTANCE))).length ∧
    (l.foldl (accumulate sqrt agent) acc).cohesion_count = acc.cohesion_count +
      (l.filter (fun o => decide (distance sqrt agent o < COHESION_DISTANCE))).length := by
  induction l with
  | nil => intro acc; simp
  | cons o rest ih =>
    intro acc
    obtain ⟨h1, h2, h3, h4, h5, h6, h7, h8⟩ := ih (accumulate sqrt agent acc o)
    obtain ⟨a1, a2, a3, a4, a5, a6, a7, a8⟩ := accumulate_fields sqrt agent acc o
    simp only [List.foldl_cons, List.filter_cons]
    rw [h1, h2, h3, h4, h5, h6, h7, h8, a1, a2, a3, a4, a5, a6, a7, a8]
    by_cases hs : distance sqrt agent o < SEPARATION_DISTANCE <;>
    by_cases ha : distance sqrt agent o < ALIGNMENT_DISTANCE <;>
    by_cases hc : distance sqrt agent o < COHESION_DISTANCE <;>
    simp only [hs, ha, hc, decide_True, decide_False, if_true, if_false, List.map_cons,
      List.sum_cons, List.length_cons, add_zero] <;>
    refine ⟨?_, ?_, ?_, ?_, ?_, ?_, ?_, ?_⟩ <;>
    first | rfl | ring

/-- The accumulators `update_agent` holds when the loop exits, as sums over `within`. -/
theorem scan_fields (sqrt : F → F) (agent : Agent F) (agents : List (Agent F)) (self : Nat) :
    (scan sqrt agent agents self).sx =
      ((within sqrt agent agents self SEPARATION_DISTANCE).map (fun o => agent.x - o.x)).sum ∧
    (scan sqrt agent agents self).sy =
      ((within sqrt agent agents self SEPARATION_DISTANCE).map (fun o => agent.y - o.y)).sum ∧
    (scan sqrt agent agents self).ax =
      ((within sqrt agent agents self ALIGNMENT_DISTANCE).map (fun o => o.vx)).sum ∧
    (scan sqrt agent agents self).ay =
      ((within sqrt agent agents self ALIGNMENT_DISTANCE).map (fun o => o.vy)).sum ∧
    (scan sqrt agent agents self).cx =
      ((within sqrt agent agents self COHESION_DISTANCE).map (fun o => o.x)).sum ∧
    (scan sqrt agent agents self).cy =
      ((within sqrt agent agents self COHESION_DISTANCE).map (fun o => o.y)).sum ∧
    (scan sqrt agent agents self).alignment_count =
      (within sqrt agent agents self ALIGNMENT_DISTANCE).length ∧
    (scan sqrt agent agents self).cohesion_count =
      (within sqrt agent agents self COHESION_DISTANCE).length := by
  rw [scan_eq_foldl]
  obtain ⟨h1, h2, h3, h4, h5, h6, h7, h8⟩ :=
    foldl_accumulate sqrt agent (agents.eraseIdx self) Accum.init
  simp only [within_eq_filter]
  rw [h1, h2, h3, h4, h5, h6, h7, h8]
  simp [Accum.init]

end Loop

/-! The normalisation steps in exact real arithmetic -/

theorem sqrt_sumsq_pos_iff (x y : ℝ) : 0 < Real.sqrt (x * x + y * y) ↔ (x, y) ≠ (0, 0) := by
  rw [Real.sqrt_pos]
  constructor
  · intro h he
    simp only [Prod.mk.injEq] at he
    rw [he.1, he.2] at h
    simp at h
  · intro h
    by_contra hc
    have h0 : x * x + y * y = 0 :=
      le_antisymm (not_lt.mp hc) (add_nonneg (mul_self_nonneg x) (mul_self_nonneg y))
    have hx : x = 0 := by nlinarith [mul_self_nonneg x, mul_self_nonneg y]
    have hy : y = 0 := by nlinarith [mul_self_nonneg x, mul_self_nonneg y]
    exact h (by rw [hx, hy])

/-- The guarded division `if (length > 0) { x /= length; y /= length; }` is unit-or-zero. -/
theorem normalise_eq (x y : ℝ) :
    ((if Real.sqrt (x * x + y * y) > 0 then x / Real.sqrt (x * x + y * y) else x),
     (if Real.sqrt (x * x + y * y) > 0 then y / Real.sqrt (x * x + y * y) else y)) =
      unit_or_zero Real.sqrt (x, y) := by
  unfold unit_or_zero vec_length
  by_cases h : (x, y) = (0, 0)
  · rw [if_pos h]
    simp only [Prod.mk.injEq] at h
    rw [h.1, h.2]
    simp
  · rw [if_neg h]
    have hp := (sqrt_sumsq_pos_iff x y).mpr h
    simp only [gt_iff_lt, hp, if_true]

/-- The steering vectors `update_agent` computes, in the specification's words. -/
theorem steering_spec (a : Agent ℝ) (agents : List (Agent ℝ)) (self : Nat) (cursor : Cursor) :
    ((steering Real.sqrt a agents self cursor).sx, (steering Real.sqrt a agents self cursor).sy) =
      spec_S Real.sqrt a agents self ∧
    ((steering Real.sqrt a agents self cursor).ax, (steering Real.sqrt a agents self cursor).ay) =
      spec_A Real.sqrt a agents self ∧
    ((steering Real.sqrt a agents self cursor).cx, (steering Real.sqrt a agents self cursor).cy) =
      spec_C Real.sqrt a agents self ∧
    ((steering Real.sqrt a agents self cursor).tx, (steering Real.sqrt a agents self cursor).ty) =
      spec_T Real.sqrt a cursor ∧
    (steering Real.sqrt a agents self cursor).separation_factor = spec_f Real.sqrt a cursor := by
  obtain ⟨h1, h2, h3, h4, h5, h6, h7, h8⟩ := scan_fields Real.sqrt a agents self
  simp only [steering, steer]
  rw [h1, h2, h3, h4, h5, h6, h7, h8]
  refine ⟨?_, ?_, ?_, ?_, ?_⟩
  · exact normalise_eq _ _
  · unfold spec_A
    simp only []
    by_cases hn : (within Real.sqrt a agents self ALIGNMENT_DISTANCE).length = 0
    · rw [List.length_eq_zero.mp hn]
      simp
    · have hp : (within Real.sqrt a agents self ALIGNMENT_DISTANCE).length > 0 := by omega
      simp only [hn, hp, if_true, if_false]
  · unfold spec_C
    simp only []
    by_cases hn : (within Real.sqrt a agents self COHESION_DISTANCE).length = 0
    · rw [List.length_eq_zero.mp hn]
      simp
    · have hp : (within Real.sqrt a agents self COHESION_DISTANCE).length > 0 := by omega
      simp only [hn, hp, if_true, if_false]
      exact normalise_eq _ _
  · exact normalise_eq _ _
  · rfl

/-- The speed limit of lines 127-132 is the specification's clamp. -/
theorem limit_speed_spec (a : Agent ℝ) :
    ((limit_speed Real.sqrt a).vx, (limit_speed Real.sqrt a).vy) =
      spec_clamp Real.sqrt (a.vx, a.vy) := by
  simp only [limit_speed, spec_clamp, vec_length]
  split_ifs
  · simp only [Prod.mk.injEq]
    constructor <;> ring
  · rfl

/-- Evaluating a square root from a known non-negative root. -/
theorem sqrt_of_sq (x y : ℝ) (hy : 0 ≤ y) (h : y * y = x) : Real.sqrt x = y := by
  rw [← h]
  exact Real.sqrt_mul_self hy

theorem sqrt_25 : Real.sqrt 25 = 5 := sqrt_of_sq 25 5 (by norm_num) (by norm_num)

theorem sqrt_2500 : Real.sqrt 2500 = 50 := sqrt_of_sq 2500 50 (by norm_num) (by norm_num)

theorem sqrt_100 : Real.sqrt 100 = 10 := sqrt_of_sq 100 10 (by norm_num) (by norm_num)

theorem sqrt_400 : Real.sqrt 400 = 20 := sqrt_of_sq 400 20 (by norm_num) (by norm_num)

theorem sqrt_441 : Real.sqrt 441 = 21 := sqrt_of_sq 441 21 (by norm_num) (by norm_num)

theorem sqrt_10000 : Real.sqrt 10000 = 100 := sqrt_of_sq 10000 100 (by norm_num) (by norm_num)

theorem sqrt_9801 : Real.sqrt 9801 = 99 := sqrt_of_sq 9801 99 (by norm_num) (by norm_num)

theorem sqrt_2601 : Real.sqrt 2601 = 51 := sqrt_of_sq 2601 51 (by norm_num) (by norm_num)

theorem sqrt_961 : Real.sqrt 961 = 31 := sqrt_of_sq 961 31 (by norm_num) (by norm_num)

theorem distance_comm (a b : Agent ℝ) : distance Real.sqrt a b = distance Real.sqrt b a := by
  simp only [distance]
  congr 1
  ring

/-- With every other agent at least `COHESION_DISTANCE` away, no agent is within a radius
of at most `COHESION_DISTANCE`. -/
theorem within_eq_nil (a : Agent ℝ) (agents : List (Agent ℝ)) (self : Nat) (r : ℝ)
    (hr : r ≤ COHESION_DISTANCE)
    (hfar : ∀ j o, j ≠ self → agents[j]? = some o → COHESION_DISTANCE ≤ distance Real.sqrt a o) :
    within Real.sqrt a agents self r = [] := by
  rw [within_eq_filter]
  rw [List.filter_eq_nil_iff]
  intro o ho
  obtain ⟨j, hj, hjo⟩ := List.mem_eraseIdx_iff_getElem?.mp ho
  have := hfar j o hj hjo
  simp only [decide_eq_true_eq, not_lt]
  linarith

/-- The two branches of the speed limit: above `AGENT_SPEED` the velocity is rescaled by the
positive factor `AGENT_SPEED / speed` to length exactly `AGENT_SPEED`; otherwise it is kept. -/
theorem limit_speed_cases (w : Agent ℝ) :
    (AGENT_SPEED < vec_length Real.sqrt (w.vx, w.vy) →
      (limit_speed Real.sqrt w).vx = AGENT_SPEED / vec_length Real.sqrt (w.vx, w.vy) * w.vx ∧
      (limit_speed Real.sqrt w).vy = AGENT_SPEED / vec_length Real.sqrt (w.vx, w.vy) * w.vy ∧
      0 < AGENT_SPEED / vec_length Real.sqrt (w.vx, w.vy) ∧
      vec_length Real.sqrt ((limit_speed Real.sqrt w).vx, (limit_speed Real.sqrt w).vy) =
        AGENT_SPEED) ∧
    (vec_length Real.sqrt (w.vx, w.vy) ≤ AGENT_SPEED → limit_speed Real.sqrt w = w) := by
  simp only [vec_length, limit_speed, AGENT_SPEED]
  constructor
  · intro h
    rw [if_pos h]
    have hq : 0 ≤ w.vx * w.vx + w.vy * w.vy :=
      add_nonneg (mul_self_nonneg w.vx) (mul_self_nonneg w.vy)
    have h1 := Real.mul_self_sqrt hq
    generalize Real.sqrt (w.vx * w.vx + w.vy * w.vy) = s at h h1 ⊢
    have hs : 0 < s := by linarith
    have hs0 : s ≠ 0 := ne_of_gt hs
    refine ⟨by ring, by ring, by positivity, ?_⟩
    have e : w.vx / s * 2 * (w.vx / s * 2) + w.vy / s * 2 * (w.vy / s * 2) = 2 * 2 := by
      field_simp
      linarith
    simp only [e]
    exact Real.sqrt_mul_self (by norm_num)
  · intro h
    rw [if_neg (not_lt.mpr h)]

/-! Division safety, for any field and any `sqrt` -/

section Checked

variable {F : Type} [LinearOrderedField F]

theorem checked_div_of_ne (x y : F) (h : y ≠ 0) : checked_div x y = some (x / y) := by
  unfold checked_div
  rw [if_neg h]

/-- A guarded division succeeds and yields what the unchecked guarded division yields. -/
theorem guarded_div (x len : F) :
    (if len > 0 then checked_div x len else some x) = some (if len > 0 then x / len else x) := by
  by_cases h : len > 0
  · rw [if_pos h, if_pos h, checked_div_of_ne x len (ne_of_gt h)]
  · rw [if_neg h, if_neg h]

/-- A division by a positive count succeeds. -/
theorem counted_div (x : F) (n : Nat) :
    (if n > 0 then checked_div x (n : F) else some x) =
      some (if n > 0 then x / (n : F) else x) := by
  by_cases h : n > 0
  · have hn : (n : F) ≠ 0 := Nat.cast_ne_zero.mpr (by omega)
    rw [if_pos h, if_pos h, checked_div_of_ne x _ hn]
  · rw [if_neg h, if_neg h]

theorem steer_checked_eq (sqrt : F → F) (agent : Agent F) (acc : Accum F) (cursor : Cursor) :
    steer_checked sqrt agent acc cursor = some (steer sqrt agent acc cursor) := by
  have h20 : (SEPARATION_DISTANCE : F) ≠ 0 := by simp [SEPARATION_DISTANCE]
  simp only [steer_checked, steer, guarded_div, counted_div, checked_div_of_ne _ _ h20,
    Option.some_bind]
  by_cases hc : acc.cohesion_count > 0
  · have hn : (acc.cohesion_count : F) ≠ 0 := Nat.cast_ne_zero.mpr (by omega)
    simp only [hc, if_true, checked_div_of_ne _ _ hn, Option.some_bind]
    by_cases hl : sqrt ((acc.cx / (acc.cohesion_count : F) - agent.x) *
        (acc.cx / (acc.cohesion_count : F) - agent.x) +
        (acc.cy / (acc.cohesion_count : F) - agent.y) *
        (acc.cy / (acc.cohesion_count : F) - agent.y)) > 0
    · simp [hl, checked_div_of_ne _ _ (ne_of_gt hl)]
    · simp [hl]
  · simp [hc]

theorem limit_speed_checked_eq (sqrt : F → F) (agent : Agent F) :
    limit_speed_checked sqrt agent = some (limit_speed sqrt agent) := by
  simp only [limit_speed_checked, limit_speed]
  by_cases h : sqrt (agent.vx * agent.vx + agent.vy * agent.vy) > AGENT_SPEED
  · have h2 : (0 : F) < AGENT_SPEED := by simp [AGENT_SPEED]
    have hs : sqrt (agent.vx * agent.vx + agent.vy * agent.vy) ≠ 0 :=
      ne_of_gt (lt_trans h2 h)
    simp [h, checked_div_of_ne _ _ hs]
  · simp [h]

/-- No division executed by `update_agent` has a zero divisor: the checked run succeeds and
returns the array the unchecked run returns. -/
theorem update_agent_checked_eq (sqrt : F → F) (agents : List (Agent F)) (self : Nat)
    (cursor : Cursor) :
    update_agent_checked sqrt agents self cursor = some (update_agent sqrt agents self cursor) := by
  unfold update_agent_checked update_agent
  cases agents[self]? with
  | none => rfl
  | some a =>
    simp only [steer_checked_eq, limit_speed_checked_eq, Option.some_bind]
    rfl

end Checked

/-- A vector whose length is not positive is the zero vector, and the guarded normalisation
leaves it as it is. -/
theorem zero_length_kept (x y : ℝ) (h : ¬ 0 < vec_length Real.sqrt (x, y)) :
    (if Real.sqrt (x * x + y * y) > 0 then x / Real.sqrt (x * x + y * y) else x) = 0 ∧
    (if Real.sqrt (x * x + y * y) > 0 then y / Real.sqrt (x * x + y * y) else y) = 0 := by
  simp only [vec_length] at h
  have hz : (x, y) = (0, 0) := by
    by_contra hne
    exact h ((sqrt_sumsq_pos_iff x y).mpr hne)
  simp only [Prod.mk.injEq] at hz
  rw [if_neg h, if_neg h]
  exact hz

/-- With exactly one other agent `o` within `SEPARATION_DISTANCE`, at a distinct position,
the separation vector is `(self.pos - o.pos) / d` with `d > 0` the length of that offset. -/
theorem single_separation (a : Agent ℝ) (agents : List (Agent ℝ)) (self : Nat) (cursor : Cursor)
    (o : Agent ℝ) (hw : within Real.sqrt a agents self SEPARATION_DISTANCE = [o])
    (hne : (a.x, a.y) ≠ (o.x, o.y)) :
    0 < distance Real.sqrt a o ∧
    (steering Real.sqrt a agents self cursor).sx = (a.x - o.x) / distance Real.sqrt a o ∧
    (steering Real.sqrt a agents self cursor).sy = (a.y - o.y) / distance Real.sqrt a o := by
  have hne0 : (a.x - o.x, a.y - o.y) ≠ (0, 0) := by
    intro h
    simp only [Prod.mk.injEq] at h
    apply hne
    rw [Prod.mk.injEq]
    exact ⟨by linarith [h.1], by linarith [h.2]⟩
  have hpos : 0 < distance Real.sqrt a o := (sqrt_sumsq_pos_iff _ _).mpr hne0
  have hda : Real.sqrt ((a.x - o.x) * (a.x - o.x) + (a.y - o.y) * (a.y - o.y)) =
      distance Real.sqrt a o := rfl
  have hS := (steering_spec a agents self cursor).1
  simp only [spec_S, hw, List.map_cons, List.map_nil, List.sum_cons, List.sum_nil, add_zero,
    unit_or_zero, hne0, if_false, vec_length, hda, Prod.mk.injEq] at hS
  exact ⟨hpos, hS.1, hS.2⟩

/-- One `move_agent` step from a position in the closed window rectangle, at speed at most
`AGENT_SPEED`, ends in the closed window rectangle and keeps the velocity. -/
theorem move_agent_closed (u : Agent ℝ)
    (hx : 0 ≤ u.x ∧ u.x ≤ 1900) (hy : 0 ≤ u.y ∧ u.y ≤ 1200)
    (hv : Real.sqrt (u.vx * u.vx + u.vy * u.vy) ≤ 2) :
    (0 ≤ (move_agent u).x ∧ (move_agent u).x ≤ 1900) ∧
    (0 ≤ (move_agent u).y ∧ (move_agent u).y ≤ 1200) ∧
    (move_agent u).vx = u.vx ∧ (move_agent u).vy = u.vy := by
  obtain ⟨⟨hvx0, hvx1⟩, ⟨hvy0, hvy1⟩⟩ := component_bounds u.vx u.vy hv
  obtain ⟨ex, ey, evx, evy⟩ := move_agent_fields u
  rw [ex, ey]
  refine ⟨⟨?_, ?_⟩, ⟨?_, ?_⟩, evx, evy⟩ <;> split_ifs <;> linarith [hx.1, hx.2, hy.1, hy.2]

/-- The bounds one pass of the initialisation loop body guarantees for non-negative `rand()`
results. -/
theorem init_agent_bounds (r1 r2 r3 r4 : Int)
    (h1 : 0 ≤ r1) (h2 : 0 ≤ r2) (h3 : 0 ≤ r3) (h4 : 0 ≤ r4) :
    (∃ m n : Int, (init_agent r1 r2 r3 r4 : Agent ℝ).x = (m : ℝ) ∧
        (init_agent r1 r2 r3 r4 : Agent ℝ).y = (n : ℝ) ∧
        0 ≤ m ∧ m < WINDOW_WIDTH ∧ 0 ≤ n ∧ n < WINDOW_HEIGHT) ∧
    (0 ≤ (init_agent r1 r2 r3 r4 : Agent ℝ).x ∧
      (init_agent r1 r2 r3 r4 : Agent ℝ).x < (WINDOW_WIDTH : ℝ) ∧
      0 ≤ (init_agent r1 r2 r3 r4 : Agent ℝ).y ∧
      (init_agent r1 r2 r3 r4 : Agent ℝ).y < (WINDOW_HEIGHT : ℝ)) ∧
    (∃ k l : Int, (init_agent r1 r2 r3 r4 : Agent ℝ).vx = (k : ℝ) / 50 ∧
        (init_agent r1 r2 r3 r4 : Agent ℝ).vy = (l : ℝ) / 50 ∧
        -50 ≤ k ∧ k ≤ 49 ∧ -50 ≤ l ∧ l ≤ 49) ∧
    (-1 ≤ (init_agent r1 r2 r3 r4 : Agent ℝ).vx ∧ (init_agent r1 r2 r3 r4 : Agent ℝ).vx < 1 ∧
      -1 ≤ (init_agent r1 r2 r3 r4 : Agent ℝ).vy ∧ (init_agent r1 r2 r3 r4 : Agent ℝ).vy < 1) ∧
    Real.sqrt ((init_agent r1 r2 r3 r4 : Agent ℝ).vx ^ 2 +
      (init_agent r1 r2 r3 r4 : Agent ℝ).vy ^ 2) < AGENT_SPEED := by
  have hW : (0 : Int) < WINDOW_WIDTH := by decide
  have hH : (0 : Int) < WINDOW_HEIGHT := by decide
  have x0 := Int.tmod_nonneg WINDOW_WIDTH h1
  have x1 := Int.tmod_lt_of_pos r1 hW
  have y0 := Int.tmod_nonneg WINDOW_HEIGHT h2
  have y1 := Int.tmod_lt_of_pos r2 hH
  have k0 := Int.tmod_nonneg 100 h3
  have k1 := Int.tmod_lt_of_pos r3 (by decide : (0 : Int) < 100)
  have l0 := Int.tmod_nonneg 100 h4
  have l1 := Int.tmod_lt_of_pos r4 (by decide : (0 : Int) < 100)
  have klo : (-50 : ℝ) ≤ ((Int.tmod r3 100 - 50 : Int) : ℝ) := by
    have : (-50 : Int) ≤ Int.tmod r3 100 - 50 := by omega
    exact_mod_cast this
  have khi : ((Int.tmod r3 100 - 50 : Int) : ℝ) ≤ 49 := by
    have : Int.tmod r3 100 - 50 ≤ (49 : Int) := by omega
    exact_mod_cast this
  have llo : (-50 : ℝ) ≤ ((Int.tmod r4 100 - 50 : Int) : ℝ) := by
    have : (-50 : Int) ≤ Int.tmod r4 100 - 50 := by omega
    exact_mod_cast this
  have lhi : ((Int.tmod r4 100 - 50 : Int) : ℝ) ≤ 49 := by
    have : Int.tmod r4 100 - 50 ≤ (49 : Int) := by omega
    exact_mod_cast this
  simp only [init_agent]
  refine ⟨⟨Int.tmod r1 WINDOW_WIDTH, Int.tmod r2 WINDOW_HEIGHT, rfl, rfl, x0, x1, y0, y1⟩,
    ⟨by exact_mod_cast x0, by exact_mod_cast x1, by exact_mod_cast y0, by exact_mod_cast y1⟩,
    ⟨Int.tmod r3 100 - 50, Int.tmod r4 100 - 50, rfl, rfl, by omega, by omega, by omega,
      by omega⟩,
    ⟨?_, ?_, ?_, ?_⟩, ?_⟩
  · linarith
  · linarith
  · linarith
  · linarith
  · simp only [AGENT_SPEED]
    rw [Real.sqrt_lt' (by norm_num)]
    nlinarith

/-! Claims -/

/-- C1 (speed clamp): for every population, every agent index in it and every cursor,
`update_agent` leaves an agent at that index whose velocity satisfies
`sqrt (vx^2 + vy^2) ≤ AGENT_SPEED`, in exact real arithmetic, whatever the input velocity. -/
theorem speed_clamp (agents : List (Agent ℝ)) (self : Nat) (cursor : Cursor)
    (h : self < agents.length) :
    ∃ a, (update_agent Real.sqrt agents self cursor)[self]? = some a ∧
      Real.sqrt (a.vx ^ 2 + a.vy ^ 2) ≤ AGENT_SPEED := by
  refine ⟨updated Real.sqrt agents[self] agents self cursor, ?_, ?_⟩
  · simp [update_agent, List.getElem?_eq_getElem h, List.getElem?_set_self h]
  · have := limit_speed_le (blend agents[self] (steering Real.sqrt agents[self] agents self cursor))
    simpa [updated, AGENT_SPEED, pow_two] using this

/-- Witness for C1: a single agent moving at speed 5, cursor at the origin. -/
theorem speed_clamp_witness :
    ∃ a, (update_agent Real.sqrt [(⟨0, 0, 3, 4⟩ : Agent ℝ)] 0 ⟨0, 0⟩)[0]? = some a ∧
      Real.sqrt (a.vx ^ 2 + a.vy ^ 2) ≤ AGENT_SPEED :=
  speed_clamp [⟨0, 0, 3, 4⟩] 0 ⟨0, 0⟩ (by simp)

/-- C2, as stated, fails: the agent at (1899, 0) with velocity (1, 0) lies in
`[0, WINDOW_WIDTH) x [0, WINDOW_HEIGHT)` with speed 1 ≤ `AGENT_SPEED`, yet `move_agent` leaves
it at `x = 1900 = WINDOW_WIDTH`, because line 31 tests `x > WINDOW_WIDTH`; the strict upper
bound does not hold. -/
theorem wraparound_strict_fails :
    (0 ≤ (edge_agent : Agent ℝ).x ∧ (edge_agent : Agent ℝ).x < (WINDOW_WIDTH : ℝ) ∧
      0 ≤ (edge_agent : Agent ℝ).y ∧ (edge_agent : Agent ℝ).y < (WINDOW_HEIGHT : ℝ) ∧
      Real.sqrt ((edge_agent : Agent ℝ).vx ^ 2 + (edge_agent : Agent ℝ).vy ^ 2) ≤ AGENT_SPEED) ∧
    (move_agent (edge_agent : Agent ℝ)).x = 1900 ∧
    ¬ ((move_agent (edge_agent : Agent ℝ)).x < (WINDOW_WIDTH : ℝ)) := by
  have hx := (move_agent_fields (edge_agent : Agent ℝ)).1
  have e : (move_agent (edge_agent : Agent ℝ)).x = 1900 := by
    rw [hx]; norm_num [edge_agent]
  refine ⟨⟨?_, ?_, ?_, ?_, ?_⟩, e, ?_⟩
  · norm_num [edge_agent]
  · norm_num [edge_agent, window_width_cast]
  · norm_num [edge_agent]
  · norm_num [edge_agent, window_height_cast]
  · norm_num [edge_agent, AGENT_SPEED]
  · rw [e, window_width_cast]; norm_num

/-- C2 (amended): for every agent whose position lies in
`[0, WINDOW_WIDTH) x [0, WINDOW_HEIGHT)` and whose speed is at most `AGENT_SPEED`, the position
after `move_agent` satisfies `0 ≤ x ≤ WINDOW_WIDTH` and `0 ≤ y ≤ WINDOW_HEIGHT`: the upper
bound is not strict. -/
theorem wraparound_closed (a : Agent ℝ)
    (hx0 : 0 ≤ a.x) (hx1 : a.x < (WINDOW_WIDTH : ℝ))
    (hy0 : 0 ≤ a.y) (hy1 : a.y < (WINDOW_HEIGHT : ℝ))
    (hv : Real.sqrt (a.vx ^ 2 + a.vy ^ 2) ≤ AGENT_SPEED) :
    (0 ≤ (move_agent a).x ∧ (move_agent a).x ≤ (WINDOW_WIDTH : ℝ)) ∧
    (0 ≤ (move_agent a).y ∧ (move_agent a).y ≤ (WINDOW_HEIGHT : ℝ)) := by
  rw [window_width_cast] at hx1 ⊢
  rw [window_height_cast] at hy1 ⊢
  have hv2 : Real.sqrt (a.vx * a.vx + a.vy * a.vy) ≤ 2 := by
    simpa [AGENT_SPEED, pow_two] using hv
  obtain ⟨⟨hvx0, hvx1⟩, ⟨hvy0, hvy1⟩⟩ := component_bounds a.vx a.vy hv2
  obtain ⟨ex, ey, -, -⟩ := move_agent_fields a
  rw [ex, ey]
  refine ⟨⟨?_, ?_⟩, ⟨?_, ?_⟩⟩ <;> split_ifs <;> linarith

/-- Witness for the amended C2 at the agent (1899, 0) moving right at speed 1, which ends on
the edge `x = WINDOW_WIDTH`. -/
theorem wraparound_closed_witness :
    (0 ≤ (move_agent (edge_agent : Agent ℝ)).x ∧
      (move_agent (edge_agent : Agent ℝ)).x ≤ (WINDOW_WIDTH : ℝ)) ∧
    (0 ≤ (move_agent (edge_agent : Agent ℝ)).y ∧
      (move_agent (edge_agent : Agent ℝ)).y ≤ (WINDOW_HEIGHT : ℝ)) :=
  wraparound_closed edge_agent
    (by norm_num [edge_agent]) (by norm_num [edge_agent, window_width_cast])
    (by norm_num [edge_agent]) (by norm_num [edge_agent, window_height_cast])
    (by norm_num [edge_agent, AGENT_SPEED])

/-- C4 (integration and wrap): `move_agent` sets each coordinate to `p + v + dimension` if
`p + v < 0`, to `p + v - dimension` if `p + v > dimension`, and to `p + v` otherwise
(x with `WINDOW_WIDTH`, y with `WINDOW_HEIGHT`); on neither axis do the two sequential tests
both fire (the second test reads the value the first one left); the velocity is unchanged. -/
theorem move_agent_wrap (a : Agent ℝ) :
    (move_agent a).x =
      (if a.x + a.vx < 0 then a.x + a.vx + (WINDOW_WIDTH : ℝ)
       else if a.x + a.vx > (WINDOW_WIDTH : ℝ) then a.x + a.vx - (WINDOW_WIDTH : ℝ)
       else a.x + a.vx) ∧
    (move_agent a).y =
      (if a.y + a.vy < 0 then a.y + a.vy + (WINDOW_HEIGHT : ℝ)
       else if a.y + a.vy > (WINDOW_HEIGHT : ℝ) then a.y + a.vy - (WINDOW_HEIGHT : ℝ)
       else a.y + a.vy) ∧
    ¬ (a.x + a.vx < 0 ∧
        (if a.x + a.vx < 0 then a.x + a.vx + (WINDOW_WIDTH : ℝ) else a.x + a.vx)
          > (WINDOW_WIDTH : ℝ)) ∧
    ¬ (a.y + a.vy < 0 ∧
        (if a.y + a.vy < 0 then a.y + a.vy + (WINDOW_HEIGHT : ℝ) else a.y + a.vy)
          > (WINDOW_HEIGHT : ℝ)) ∧
    (move_agent a).vx = a.vx ∧ (move_agent a).vy = a.vy := by
  obtain ⟨ex, ey, evx, evy⟩ := move_agent_fields a
  rw [window_width_cast, window_height_cast, ex, ey]
  refine ⟨?_, ?_, ?_, ?_, evx, evy⟩
  · split_ifs <;> first | rfl | linarith
  · split_ifs <;> first | rfl | linarith
  · rintro ⟨h1, h2⟩
    rw [if_pos h1] at h2
    linarith
  · rintro ⟨h1, h2⟩
    rw [if_pos h1] at h2
    linarith

/-- C5 (frame of the rule step): `update_agent` on index `i` keeps the population size,
leaves every other index exactly as it was (position and velocity), and leaves the position of
agent `i` as it was; only the velocity of agent `i` can change. -/
theorem update_agent_frame {F : Type} [LinearOrderedField F] (sqrt : F → F)
    (agents : List (Agent F)) (i : Nat) (cursor : Cursor) :
    (update_agent sqrt agents i cursor).length = agents.length ∧
    (∀ j, j ≠ i → (update_agent sqrt agents i cursor)[j]? = agents[j]?) ∧
    ((update_agent sqrt agents i cursor)[i]?).map (fun a => (a.x, a.y)) =
      (agents[i]?).map (fun a => (a.x, a.y)) := by
  refine ⟨update_agent_length sqrt agents i cursor, ?_, ?_⟩
  · intro j hj
    exact update_agent_getElem?_ne sqrt agents i j cursor (Ne.symm hj)
  · rw [update_agent_getElem?_self]
    cases agents[i]? with
    | none => rfl
    | some a =>
      obtain ⟨hx, hy⟩ := updated_pos sqrt a agents i cursor
      simp [hx, hy]

/-- C6 (sequential tick order): after one frame, the state at index `i` is what
`update_agent` followed by `move_agent` produce for index `i` when run against the array whose
entries below `i` are already the post-frame agents and whose entries from `i` on are still the
pre-frame agents; the agent updated and moved is the pre-frame agent `i`. -/
theorem tick_sequential {F : Type} [LinearOrderedField F] (sqrt : F → F)
    (agents : List (Agent F)) (cursor : Cursor) (i : Nat) :
    (tick sqrt agents cursor)[i]? =
      (move_at (update_agent sqrt
        ((tick sqrt agents cursor).take i ++ agents.drop i) i cursor) i)[i]? ∧
    (tick sqrt agents cursor)[i]? =
      (agents[i]?).map (fun a => move_agent
        (updated sqrt a ((tick sqrt agents cursor).take i ++ agents.drop i) i cursor)) :=
  tick_entry sqrt agents cursor i

/-- C3 (amended): in exact real arithmetic, the velocity `update_agent` writes for agent `self` equals
`clamp (v + f*S + A + C + CURSOR_ATTRACTION_FACTOR*T)` with `S`, `A`, `C`, `T`, `f` and `clamp`
as the specification words them (sums and means over the other agents within each radius,
unit-or-zero normalisation, clamp only above `AGENT_SPEED`). -/
theorem velocity_rule (agents : List (Agent ℝ)) (self : Nat) (cursor : Cursor) :
    ((update_agent Real.sqrt agents self cursor)[self]?).map (fun a => (a.vx, a.vy)) =
      (agents[self]?).map (fun a => spec_velocity Real.sqrt a agents self cursor) := by
  rw [update_agent_getElem?_self]
  cases agents[self]? with
  | none => rfl
  | some a =>
    simp only [Option.map_some']
    congr 1
    obtain ⟨hS, hA, hC, hT, hf⟩ := steering_spec a agents self cursor
    unfold updated spec_velocity
    rw [limit_speed_spec]
    simp only [← hS, ← hA, ← hC, ← hT, ← hf, blend]
    congr 2 <;> ring

/-- C9 (two-agent scenario): agents at (0,0) and (10,0), both at rest, cursor (0,0). One
`update_agent` call on each agent from that initial state computes, for the agent at (0,0),
separation vector (-1,0) and attraction vector (0,0); for the agent at (10,0), separation
vector (1,0), attraction vector (-1,0), separation factor 3/2, alignment (0,0) and cohesion
(-1,0), and writes the velocity (1.5 - 1 - 1.55, 0) = (-1.05, 0), whose x component is
strictly negative. -/
theorem two_agent_scenario :
    ((steering Real.sqrt (agent_a : Agent ℝ) scenario_agents 0 origin).sx = -1 ∧
     (steering Real.sqrt (agent_a : Agent ℝ) scenario_agents 0 origin).sy = 0 ∧
     (steering Real.sqrt (agent_a : Agent ℝ) scenario_agents 0 origin).tx = 0 ∧
     (steering Real.sqrt (agent_a : Agent ℝ) scenario_agents 0 origin).ty = 0) ∧
    ((steering Real.sqrt (agent_b : Agent ℝ) scenario_agents 1 origin).sx = 1 ∧
     (steering Real.sqrt (agent_b : Agent ℝ) scenario_agents 1 origin).sy = 0 ∧
     (steering Real.sqrt (agent_b : Agent ℝ) scenario_agents 1 origin).tx = -1 ∧
     (steering Real.sqrt (agent_b : Agent ℝ) scenario_agents 1 origin).ty = 0 ∧
     (steering Real.sqrt (agent_b : Agent ℝ) scenario_agents 1 origin).separation_factor = 3 / 2 ∧
     (steering Real.sqrt (agent_b : Agent ℝ) scenario_agents 1 origin).ax = 0 ∧
     (steering Real.sqrt (agent_b : Agent ℝ) scenario_agents 1 origin).ay = 0 ∧
     (steering Real.sqrt (agent_b : Agent ℝ) scenario_agents 1 origin).cx = -1 ∧
     (steering Real.sqrt (agent_b : Agent ℝ) scenario_agents 1 origin).cy = 0) ∧
    update_agent Real.sqrt (scenario_agents : List (Agent ℝ)) 1 origin =
      [agent_a, ⟨10, 0, -(105 / 100), 0⟩] ∧
    (-(105 / 100) : ℝ) = 3 / 2 - 1 - 155 / 100 ∧ (-(105 / 100) : ℝ) < 0 := by
  refine ⟨⟨?_, ?_, ?_, ?_⟩, ⟨?_, ?_, ?_, ?_, ?_, ?_, ?_, ?_, ?_⟩, ?_, ?_, ?_⟩
  all_goals
    norm_num [update_agent, updated, limit_speed, blend, steering, steer, scan, scan_loop,
      scan_body, accumulate, distance, scenario_agents, agent_a, agent_b, origin, Accum.init,
      AGENT_SPEED, SEPARATION_DISTANCE, ALIGNMENT_DISTANCE, COHESION_DISTANCE,
      CURSOR_ATTRACTION_FACTOR, sqrt_100, sqrt_400, sqrt_441]

/-- C8 (amended): in exact real arithmetic, for an agent with speed at most `AGENT_SPEED`, with
every other agent at Euclidean distance at least `COHESION_DISTANCE` and the cursor at the
agent's position, the separation, alignment, cohesion and attraction vectors `update_agent`
computes are all zero and `update_agent` leaves the agent (hence its velocity) as it was. -/
theorem zero_neighbour_stability (agents : List (Agent ℝ)) (self : Nat) (cursor : Cursor)
    (a : Agent ℝ) (ha : agents[self]? = some a)
    (hv : Real.sqrt (a.vx ^ 2 + a.vy ^ 2) ≤ AGENT_SPEED)
    (hfar0 : ∀ j o, j ≠ self → agents[j]? = some o → COHESION_DISTANCE ≤ euclid Real.sqrt a o)
    (hcx : (cursor.x : ℝ) = a.x) (hcy : (cursor.y : ℝ) = a.y) :
    ((steering Real.sqrt a agents self cursor).sx = 0 ∧
     (steering Real.sqrt a agents self cursor).sy = 0 ∧
     (steering Real.sqrt a agents self cursor).ax = 0 ∧
     (steering Real.sqrt a agents self cursor).ay = 0 ∧
     (steering Real.sqrt a agents self cursor).cx = 0 ∧
     (steering Real.sqrt a agents self cursor).cy = 0 ∧
     (steering Real.sqrt a agents self cursor).tx = 0 ∧
     (steering Real.sqrt a agents self cursor).ty = 0) ∧
    (update_agent Real.sqrt agents self cursor)[self]? = some a ∧
    update_agent Real.sqrt agents self cursor = agents := by
  have hfar : ∀ j o, j ≠ self → agents[j]? = some o →
      COHESION_DISTANCE ≤ distance Real.sqrt a o := by
    intro j o hj h
    rw [distance_eq_euclid]
    exact hfar0 j o hj h
  obtain ⟨hS, hA, hC, hT, -⟩ := steering_spec a agents self cursor
  have nS := within_eq_nil a agents self SEPARATION_DISTANCE
    (by norm_num [SEPARATION_DISTANCE, COHESION_DISTANCE]) hfar
  have nA := within_eq_nil a agents self ALIGNMENT_DISTANCE
    (by norm_num [ALIGNMENT_DISTANCE, COHESION_DISTANCE]) hfar
  have nC := within_eq_nil a agents self COHESION_DISTANCE le_rfl hfar
  simp only [spec_S, nS, List.map_nil, List.sum_nil, unit_or_zero, if_true, Prod.mk.injEq] at hS
  simp only [spec_A, nA, List.length_nil, if_true, Prod.mk.injEq] at hA
  simp only [spec_C, nC, List.length_nil, if_true, Prod.mk.injEq] at hC
  simp only [spec_T, hcx, hcy, sub_self, unit_or_zero, if_true, Prod.mk.injEq] at hT
  have hterms : (steering Real.sqrt a agents self cursor).sx = 0 ∧
      (steering Real.sqrt a agents self cursor).sy = 0 ∧
      (steering Real.sqrt a agents self cursor).ax = 0 ∧
      (steering Real.sqrt a agents self cursor).ay = 0 ∧
      (steering Real.sqrt a agents self cursor).cx = 0 ∧
      (steering Real.sqrt a agents self cursor).cy = 0 ∧
      (steering Real.sqrt a agents self cursor).tx = 0 ∧
      (steering Real.sqrt a agents self cursor).ty = 0 :=
    ⟨hS.1, hS.2, hA.1, hA.2, hC.1, hC.2, hT.1, hT.2⟩
  have hupd : updated Real.sqrt a agents self cursor = a := by
    obtain ⟨e1, e2, e3, e4, e5, e6, e7, e8⟩ := hterms
    have hb : blend a (steering Real.sqrt a agents self cursor) = a := by
      simp only [blend, e1, e2, e3, e4, e5, e6, e7, e8, mul_zero, add_zero]
    unfold updated
    rw [hb]
    simp only [limit_speed]
    rw [if_neg]
    simpa [pow_two] using hv
  have hself : (update_agent Real.sqrt agents self cursor)[self]? = some a := by
    rw [update_agent_getElem?_self, ha, Option.map_some', hupd]
  refine ⟨hterms, hself, ?_⟩
  apply List.ext_getElem?
  intro j
  by_cases hj : self = j
  · subst hj
    rw [hself, ha]
  · exact update_agent_getElem?_ne Real.sqrt agents self j cursor hj

/-- Witness for the amended C8: `agent_p` at the origin with speed 1, the only other agent
exactly `COHESION_DISTANCE` = 100 away, cursor at the origin. -/
theorem zero_neighbour_stability_witness :
    ((steering Real.sqrt (agent_p : Agent ℝ) barrier_agents 0 origin).sx = 0 ∧
     (steering Real.sqrt (agent_p : Agent ℝ) barrier_agents 0 origin).sy = 0 ∧
     (steering Real.sqrt (agent_p : Agent ℝ) barrier_agents 0 origin).ax = 0 ∧
     (steering Real.sqrt (agent_p : Agent ℝ) barrier_agents 0 origin).ay = 0 ∧
     (steering Real.sqrt (agent_p : Agent ℝ) barrier_agents 0 origin).cx = 0 ∧
     (steering Real.sqrt (agent_p : Agent ℝ) barrier_agents 0 origin).cy = 0 ∧
     (steering Real.sqrt (agent_p : Agent ℝ) barrier_agents 0 origin).tx = 0 ∧
     (steering Real.sqrt (agent_p : Agent ℝ) barrier_agents 0 origin).ty = 0) ∧
    (update_agent Real.sqrt (barrier_agents : List (Agent ℝ)) 0 origin)[0]? = some agent_p ∧
    update_agent Real.sqrt (barrier_agents : List (Agent ℝ)) 0 origin = barrier_agents :=
  zero_neighbour_stability barrier_agents 0 origin agent_p rfl
    (by norm_num [agent_p, AGENT_SPEED])
    (by
      intro j o hj h
      match j, hj, h with
      | 1, _, h =>
        simp only [barrier_agents, List.getElem?_cons_succ, List.getElem?_cons_zero,
          Option.some.injEq] at h
        subst h
        norm_num [euclid, agent_p, agent_q, COHESION_DISTANCE, sqrt_10000]
      | (k + 2), _, h => simp [barrier_agents] at h)
    (by norm_num [origin, agent_p]) (by norm_num [origin, agent_p])

/-- C10 (amended): in exact real arithmetic, in a population of exactly two agents at distinct
positions with Euclidean distance `d < SEPARATION_DISTANCE`, the separation vector
`update_agent` computes for each agent is `(self.pos - other.pos) / d` with `d > 0`, a unit
vector pointing directly away from the other agent, and the two separation vectors are exact
negatives. -/
theorem separation_direction (a b : Agent ℝ) (cursor : Cursor)
    (hne : (a.x, a.y) ≠ (b.x, b.y))
    (hd0 : euclid Real.sqrt a b < SEPARATION_DISTANCE) :
    0 < euclid Real.sqrt a b ∧
    ((steering Real.sqrt a [a, b] 0 cursor).sx = (a.x - b.x) / euclid Real.sqrt a b ∧
     (steering Real.sqrt a [a, b] 0 cursor).sy = (a.y - b.y) / euclid Real.sqrt a b) ∧
    ((steering Real.sqrt b [a, b] 1 cursor).sx = (b.x - a.x) / euclid Real.sqrt a b ∧
     (steering Real.sqrt b [a, b] 1 cursor).sy = (b.y - a.y) / euclid Real.sqrt a b) ∧
    ((steering Real.sqrt b [a, b] 1 cursor).sx = -(steering Real.sqrt a [a, b] 0 cursor).sx ∧
     (steering Real.sqrt b [a, b] 1 cursor).sy = -(steering Real.sqrt a [a, b] 0 cursor).sy) ∧
    (steering Real.sqrt a [a, b] 0 cursor).sx ^ 2 +
      (steering Real.sqrt a [a, b] 0 cursor).sy ^ 2 = 1 := by
  have hd : distance Real.sqrt a b < SEPARATION_DISTANCE := by
    rw [distance_eq_euclid]
    exact hd0
  rw [← distance_eq_euclid]
  have hne' : (a.x - b.x, a.y - b.y) ≠ (0, 0) := by
    intro h
    simp only [Prod.mk.injEq] at h
    apply hne
    rw [Prod.mk.injEq]
    exact ⟨by linarith [h.1], by linarith [h.2]⟩
  have hpos : 0 < distance Real.sqrt a b := (sqrt_sumsq_pos_iff _ _).mpr hne'
  have hd' : distance Real.sqrt b a < SEPARATION_DISTANCE := by rw [← distance_comm]; exact hd
  have hpos' : 0 < distance Real.sqrt b a := by rw [← distance_comm]; exact hpos
  have hda : Real.sqrt ((a.x - b.x) * (a.x - b.x) + (a.y - b.y) * (a.y - b.y)) =
      distance Real.sqrt a b := rfl
  have hdb : Real.sqrt ((b.x - a.x) * (b.x - a.x) + (b.y - a.y) * (b.y - a.y)) =
      distance Real.sqrt a b := by rw [distance_comm]; rfl
  have w0 : within Real.sqrt a [a, b] 0 SEPARATION_DISTANCE = [b] := by
    simp [within_eq_filter, hd]
  have w1 : within Real.sqrt b [a, b] 1 SEPARATION_DISTANCE = [a] := by
    simp [within_eq_filter, hd']
  have hne2 : (b.x - a.x, b.y - a.y) ≠ (0, 0) := by
    intro h
    simp only [Prod.mk.injEq] at h
    apply hne
    rw [Prod.mk.injEq]
    exact ⟨by linarith [h.1], by linarith [h.2]⟩
  have hS0 := (steering_spec a [a, b] 0 cursor).1
  have hS1 := (steering_spec b [a, b] 1 cursor).1
  simp only [spec_S, w0, List.map_cons, List.map_nil, List.sum_cons, List.sum_nil, add_zero,
    unit_or_zero, hne', if_false, vec_length, hda, Prod.mk.injEq] at hS0
  simp only [spec_S, w1, List.map_cons, List.map_nil, List.sum_cons, List.sum_nil, add_zero,
    unit_or_zero, hne2, if_false, vec_length, hdb, Prod.mk.injEq] at hS1
  obtain ⟨e0x, e0y⟩ := hS0
  obtain ⟨e1x, e1y⟩ := hS1
  refine ⟨hpos, ⟨e0x, e0y⟩, ⟨e1x, e1y⟩, ⟨?_, ?_⟩, ?_⟩
  · rw [e0x, e1x]; ring
  · rw [e0y, e1y]; ring
  · rw [e0x, e0y]
    have hsq : distance Real.sqrt a b * distance Real.sqrt a b =
        (a.x - b.x) * (a.x - b.x) + (a.y - b.y) * (a.y - b.y) :=
      Real.mul_self_sqrt (add_nonneg (mul_self_nonneg _) (mul_self_nonneg _))
    field_simp
    nlinarith [hsq]

/-- Witness for the amended C10: the scenario agents at (0,0) and (10,0), 10 < 20 apart. -/
theorem separation_direction_witness :
    0 < euclid Real.sqrt (agent_a : Agent ℝ) agent_b ∧
    ((steering Real.sqrt (agent_a : Agent ℝ) [agent_a, agent_b] 0 origin).sx =
        ((agent_a : Agent ℝ).x - (agent_b : Agent ℝ).x) / euclid Real.sqrt (agent_a : Agent ℝ) agent_b ∧
     (steering Real.sqrt (agent_a : Agent ℝ) [agent_a, agent_b] 0 origin).sy =
        ((agent_a : Agent ℝ).y - (agent_b : Agent ℝ).y) / euclid Real.sqrt (agent_a : Agent ℝ) agent_b) ∧
    ((steering Real.sqrt (agent_b : Agent ℝ) [agent_a, agent_b] 1 origin).sx =
        ((agent_b : Agent ℝ).x - (agent_a : Agent ℝ).x) / euclid Real.sqrt (agent_a : Agent ℝ) agent_b ∧
     (steering Real.sqrt (agent_b : Agent ℝ) [agent_a, agent_b] 1 origin).sy =
        ((agent_b : Agent ℝ).y - (agent_a : Agent ℝ).y) / euclid Real.sqrt (agent_a : Agent ℝ) agent_b) ∧
    ((steering Real.sqrt (agent_b : Agent ℝ) [agent_a, agent_b] 1 origin).sx =
        -(steering Real.sqrt (agent_a : Agent ℝ) [agent_a, agent_b] 0 origin).sx ∧
     (steering Real.sqrt (agent_b : Agent ℝ) [agent_a, agent_b] 1 origin).sy =
        -(steering Real.sqrt (agent_a : Agent ℝ) [agent_a, agent_b] 0 origin).sy) ∧
    (steering Real.sqrt (agent_a : Agent ℝ) [agent_a, agent_b] 0 origin).sx ^ 2 +
      (steering Real.sqrt (agent_a : Agent ℝ) [agent_a, agent_b] 0 origin).sy ^ 2 = 1 :=
  separation_direction agent_a agent_b origin
    (by
      intro h
      have hx := congrArg Prod.fst h
      norm_num [agent_a, agent_b] at hx)
    (by norm_num [euclid, agent_a, agent_b, SEPARATION_DISTANCE, sqrt_100])

/-- C7, as stated, fails: with `agent_p` at (0,0) moving right at speed 1, `agent_q` at rest
at (100,0) and the cursor at the origin, the program's frame moves `agent_p` to x = 1 before
`agent_q` is updated, so `agent_q` sees it at distance 99 < `COHESION_DISTANCE` and ends with
velocity -2 at x = 98; updating both before moving either leaves the distance at 100, and
`agent_q` ends with velocity -1.55 at x = 98.45. Both readings of the batched tick give
the same array, which differs from the program's. -/
theorem batched_tick_differs :
    tick Real.sqrt (barrier_agents : List (Agent ℝ)) origin =
      [⟨1, 0, 1, 0⟩, ⟨98, 0, -2, 0⟩] ∧
    batched_tick Real.sqrt (barrier_agents : List (Agent ℝ)) origin =
      [⟨1, 0, 1, 0⟩, ⟨100 - 155 / 100, 0, -(155 / 100), 0⟩] ∧
    batched_tick_snapshot Real.sqrt (barrier_agents : List (Agent ℝ)) origin =
      [⟨1, 0, 1, 0⟩, ⟨100 - 155 / 100, 0, -(155 / 100), 0⟩] ∧
    tick Real.sqrt (barrier_agents : List (Agent ℝ)) origin ≠
      batched_tick Real.sqrt (barrier_agents : List (Agent ℝ)) origin ∧
    tick Real.sqrt (barrier_agents : List (Agent ℝ)) origin ≠
      batched_tick_snapshot Real.sqrt (barrier_agents : List (Agent ℝ)) origin := by
  have ht : tick Real.sqrt (barrier_agents : List (Agent ℝ)) origin =
      [⟨1, 0, 1, 0⟩, ⟨98, 0, -2, 0⟩] := by
    norm_num [tick, tick_body, move_at, move_agent, update_agent, updated, limit_speed, blend,
      steering, steer, scan, scan_loop, scan_body, accumulate, distance, barrier_agents, agent_p,
      agent_q, origin, Accum.init, AGENT_SPEED, SEPARATION_DISTANCE, ALIGNMENT_DISTANCE,
      COHESION_DISTANCE, CURSOR_ATTRACTION_FACTOR, WINDOW_WIDTH, WINDOW_HEIGHT, sqrt_10000,
      sqrt_9801, sqrt_2601, sqrt_400, List.range, List.range.loop]
  have hb : batched_tick Real.sqrt (barrier_agents : List (Agent ℝ)) origin =
      [⟨1, 0, 1, 0⟩, ⟨100 - 155 / 100, 0, -(155 / 100), 0⟩] := by
    norm_num [batched_tick, moveAll, updateAll, move_agent, update_agent, updated, limit_speed,
      blend, steering, steer, scan, scan_loop, scan_body, accumulate, distance, barrier_agents,
      agent_p, agent_q, origin, Accum.init, AGENT_SPEED, SEPARATION_DISTANCE,
      ALIGNMENT_DISTANCE, COHESION_DISTANCE, CURSOR_ATTRACTION_FACTOR, WINDOW_WIDTH,
      WINDOW_HEIGHT, sqrt_10000, sqrt_400, sqrt_961, List.range, List.range.loop]
  have hs : batched_tick_snapshot Real.sqrt (barrier_agents : List (Agent ℝ)) origin =
      [⟨1, 0, 1, 0⟩, ⟨100 - 155 / 100, 0, -(155 / 100), 0⟩] := by
    norm_num [batched_tick_snapshot, moveAll, updateAll_snapshot, move_agent, updated,
      limit_speed, blend, steering, steer, scan, scan_loop, scan_body, accumulate, distance,
      barrier_agents, agent_p, agent_q, origin, Accum.init, AGENT_SPEED, SEPARATION_DISTANCE,
      ALIGNMENT_DISTANCE, COHESION_DISTANCE, CURSOR_ATTRACTION_FACTOR, WINDOW_WIDTH,
      WINDOW_HEIGHT, sqrt_10000, sqrt_400, sqrt_961, List.mapIdx_cons]
  refine ⟨ht, hb, hs, ?_, ?_⟩
  · rw [ht, hb]
    intro h
    simp only [List.cons.injEq, Agent.mk.injEq] at h
    norm_num at h
  · rw [ht, hs]
    intro h
    simp only [List.cons.injEq, Agent.mk.injEq] at h
    norm_num at h

/-- C7 (amended): for every population and cursor, the array produced by one frame of the
program and the array produced by `updateAll` followed by `moveAll` (in either reading of
`updateAll`) have the same length and hold the same agent at index 0, so they are equal for a
population of at most one agent; nothing is claimed for the agents at later indices. -/
theorem batched_tick_first_agent {F : Type} [LinearOrderedField F] (sqrt : F → F)
    (agents : List (Agent F)) (cursor : Cursor) :
    ((tick sqrt agents cursor).length = (batched_tick sqrt agents cursor).length ∧
     (tick sqrt agents cursor)[0]? = (batched_tick sqrt agents cursor)[0]? ∧
     (agents.length ≤ 1 → tick sqrt agents cursor = batched_tick sqrt agents cursor)) ∧
    ((tick sqrt agents cursor).length = (batched_tick_snapshot sqrt agents cursor).length ∧
     (tick sqrt agents cursor)[0]? = (batched_tick_snapshot sqrt agents cursor)[0]? ∧
     (agents.length ≤ 1 →
        tick sqrt agents cursor = batched_tick_snapshot sqrt agents cursor)) := by
  have hlt : (tick sqrt agents cursor).length = agents.length := entry_length _ _ _ _
  have hlb : (batched_tick sqrt agents cursor).length = agents.length := by
    simp [batched_tick, moveAll, updateAll_length]
  have hls : (batched_tick_snapshot sqrt agents cursor).length = agents.length := by
    simp [batched_tick_snapshot, moveAll, updateAll_snapshot]
  have h0b : (tick sqrt agents cursor)[0]? = (batched_tick sqrt agents cursor)[0]? := by
    rw [tick_first]
    simp only [batched_tick, moveAll, List.getElem?_map]
    rw [updateAll_first, Option.map_map]
    rfl
  have h0s : (tick sqrt agents cursor)[0]? = (batched_tick_snapshot sqrt agents cursor)[0]? := by
    rw [tick_first]
    simp only [batched_tick_snapshot, moveAll, updateAll_snapshot, List.getElem?_map,
      List.getElem?_mapIdx, Option.map_map]
    rfl
  refine ⟨⟨by rw [hlt, hlb], h0b, ?_⟩, ⟨by rw [hlt, hls], h0s, ?_⟩⟩
  · intro hle
    apply List.ext_getElem?
    intro j
    rcases Nat.eq_zero_or_pos j with hj | hj
    · rw [hj]; exact h0b
    · rw [List.getElem?_eq_none (by omega), List.getElem?_eq_none (by omega)]
  · intro hle
    apply List.ext_getElem?
    intro j
    rcases Nat.eq_zero_or_pos j with hj | hj
    · rw [hj]; exact h0s
    · rw [List.getElem?_eq_none (by omega), List.getElem?_eq_none (by omega)]

/-- C11 (amended): in exact real arithmetic the clamp is exact and direction-preserving: for the blended velocity
`w = v + (f*S + A + C + CURSOR_ATTRACTION_FACTOR*T)` that `update_agent` forms for agent
`self`, if `|w| > AGENT_SPEED` the stored velocity is `(AGENT_SPEED / |w|) * w`, a positive
multiple of `w` of length exactly `AGENT_SPEED`; if `|w| ≤ AGENT_SPEED` the stored velocity is
`w` itself. -/
theorem clamp_exact (agents : List (Agent ℝ)) (self : Nat) (cursor : Cursor) (a : Agent ℝ)
    (ha : agents[self]? = some a) :
    ((blend a (steering Real.sqrt a agents self cursor)).vx =
        a.vx + ((steering Real.sqrt a agents self cursor).separation_factor *
            (steering Real.sqrt a agents self cursor).sx +
          (steering Real.sqrt a agents self cursor).ax +
          (steering Real.sqrt a agents self cursor).cx +
          CURSOR_ATTRACTION_FACTOR * (steering Real.sqrt a agents self cursor).tx) ∧
     (blend a (steering Real.sqrt a agents self cursor)).vy =
        a.vy + ((steering Real.sqrt a agents self cursor).separation_factor *
            (steering Real.sqrt a agents self cursor).sy +
          (steering Real.sqrt a agents self cursor).ay +
          (steering Real.sqrt a agents self cursor).cy +
          CURSOR_ATTRACTION_FACTOR * (steering Real.sqrt a agents self cursor).ty)) ∧
    ∃ r, (update_agent Real.sqrt agents self cursor)[self]? = some r ∧
      (AGENT_SPEED < vec_length Real.sqrt
          ((blend a (steering Real.sqrt a agents self cursor)).vx,
           (blend a (steering Real.sqrt a agents self cursor)).vy) →
        r.vx = AGENT_SPEED / vec_length Real.sqrt
            ((blend a (steering Real.sqrt a agents self cursor)).vx,
             (blend a (steering Real.sqrt a agents self cursor)).vy) *
          (blend a (steering Real.sqrt a agents self cursor)).vx ∧
        r.vy = AGENT_SPEED / vec_length Real.sqrt
            ((blend a (steering Real.sqrt a agents self cursor)).vx,
             (blend a (steering Real.sqrt a agents self cursor)).vy) *
          (blend a (steering Real.sqrt a agents self cursor)).vy ∧
        0 < AGENT_SPEED / vec_length Real.sqrt
            ((blend a (steering Real.sqrt a agents self cursor)).vx,
             (blend a (steering Real.sqrt a agents self cursor)).vy) ∧
        vec_length Real.sqrt (r.vx, r.vy) = AGENT_SPEED) ∧
      (vec_length Real.sqrt
          ((blend a (steering Real.sqrt a agents self cursor)).vx,
           (blend a (steering Real.sqrt a agents self cursor)).vy) ≤ AGENT_SPEED →
        r.vx = (blend a (steering Real.sqrt a agents self cursor)).vx ∧
        r.vy = (blend a (steering Real.sqrt a agents self cursor)).vy) := by
  refine ⟨⟨rfl, rfl⟩, updated Real.sqrt a agents self cursor, ?_, ?_, ?_⟩
  · rw [update_agent_getElem?_self, ha]
    rfl
  · exact (limit_speed_cases (blend a (steering Real.sqrt a agents self cursor))).1
  · intro h
    have e := (limit_speed_cases (blend a (steering Real.sqrt a agents self cursor))).2 h
    unfold updated
    rw [e]
    exact ⟨rfl, rfl⟩

/-- Witness for the amended C11: the single agent `fast_agent` with velocity (3,4), cursor at the
origin; the blended velocity is (3,4), of length 5 > `AGENT_SPEED`. -/
theorem clamp_exact_witness :
    (update_agent Real.sqrt ([fast_agent] : List (Agent ℝ)) 0 origin)[0]? =
        some ⟨0, 0, 6 / 5, 8 / 5⟩ ∧
    ∃ r, (update_agent Real.sqrt ([fast_agent] : List (Agent ℝ)) 0 origin)[0]? = some r ∧
      (AGENT_SPEED < vec_length Real.sqrt
          ((blend fast_agent (steering Real.sqrt fast_agent [fast_agent] 0 origin)).vx,
           (blend fast_agent (steering Real.sqrt fast_agent [fast_agent] 0 origin)).vy) →
        r.vx = AGENT_SPEED / vec_length Real.sqrt
            ((blend fast_agent (steering Real.sqrt fast_agent [fast_agent] 0 origin)).vx,
             (blend fast_agent (steering Real.sqrt fast_agent [fast_agent] 0 origin)).vy) *
          (blend fast_agent (steering Real.sqrt fast_agent [fast_agent] 0 origin)).vx ∧
        r.vy = AGENT_SPEED / vec_length Real.sqrt
            ((blend fast_agent (steering Real.sqrt fast_agent [fast_agent] 0 origin)).vx,
             (blend fast_agent (steering Real.sqrt fast_agent [fast_agent] 0 origin)).vy) *
          (blend fast_agent (steering Real.sqrt fast_agent [fast_agent] 0 origin)).vy ∧
        0 < AGENT_SPEED / vec_length Real.sqrt
            ((blend fast_agent (steering Real.sqrt fast_agent [fast_agent] 0 origin)).vx,
             (blend fast_agent (steering Real.sqrt fast_agent [fast_agent] 0 origin)).vy) ∧
        vec_length Real.sqrt (r.vx, r.vy) = AGENT_SPEED) ∧
      (vec_length Real.sqrt
          ((blend fast_agent (steering Real.sqrt fast_agent [fast_agent] 0 origin)).vx,
           (blend fast_agent (steering Real.sqrt fast_agent [fast_agent] 0 origin)).vy) ≤
          AGENT_SPEED →
        r.vx = (blend fast_agent (steering Real.sqrt fast_agent [fast_agent] 0 origin)).vx ∧
        r.vy = (blend fast_agent (steering Real.sqrt fast_agent [fast_agent] 0 origin)).vy) :=
  ⟨by
    norm_num [update_agent, updated, limit_speed, blend, steering, steer, scan, scan_loop,
      scan_body, fast_agent, origin, Accum.init, AGENT_SPEED, SEPARATION_DISTANCE,
      CURSOR_ATTRACTION_FACTOR, sqrt_25],
   (clamp_exact [fast_agent] 0 origin fast_agent rfl).2⟩

/-- C12 (division safety): for every population, agent index and cursor value (any pair of
integers), the run of `update_agent` in which each division fails on a zero divisor succeeds
and returns the array the program returns, so every executed division has a non-zero divisor;
and a separation, cohesion or attraction vector whose length is not positive is the zero
vector and is left as the zero vector. -/
theorem division_safety (agents : List (Agent ℝ)) (self : Nat) (cursor : Cursor) :
    update_agent_checked Real.sqrt agents self cursor =
      some (update_agent Real.sqrt agents self cursor) ∧
    ∀ a : Agent ℝ,
      (¬ 0 < vec_length Real.sqrt
            ((scan Real.sqrt a agents self).sx, (scan Real.sqrt a agents self).sy) →
        (steering Real.sqrt a agents self cursor).sx = 0 ∧
        (steering Real.sqrt a agents self cursor).sy = 0) ∧
      ((scan Real.sqrt a agents self).cohesion_count > 0 →
        ¬ 0 < vec_length Real.sqrt
            ((scan Real.sqrt a agents self).cx /
                ((scan Real.sqrt a agents self).cohesion_count : ℝ) - a.x,
             (scan Real.sqrt a agents self).cy /
                ((scan Real.sqrt a agents self).cohesion_count : ℝ) - a.y) →
        (steering Real.sqrt a agents self cursor).cx = 0 ∧
        (steering Real.sqrt a agents self cursor).cy = 0) ∧
      (¬ 0 < vec_length Real.sqrt ((cursor.x : ℝ) - a.x, (cursor.y : ℝ) - a.y) →
        (steering Real.sqrt a agents self cursor).tx = 0 ∧
        (steering Real.sqrt a agents self cursor).ty = 0) := by
  refine ⟨update_agent_checked_eq Real.sqrt agents self cursor, ?_⟩
  intro a
  refine ⟨?_, ?_, ?_⟩
  · intro h
    exact zero_length_kept _ _ h
  · intro hc h
    have hz := zero_length_kept _ _ h
    simp only [steering, steer, hc, if_true]
    exact hz
  · intro h
    exact zero_length_kept _ _ h

/-- C13 (amended): in exact real arithmetic, `cursor_distance` is the length of `cursor - self.pos` and
`separation_factor = 2 - cursor_distance / SEPARATION_DISTANCE`; it exceeds 1 exactly when
`cursor_distance < SEPARATION_DISTANCE` and is negative exactly when
`cursor_distance > 2 * SEPARATION_DISTANCE = 40`. Consequently, when exactly one other agent
`o` is within `SEPARATION_DISTANCE`, at a distinct position, and the cursor is farther than 40,
the separation term `separation_factor * S` added to the velocity has a negative dot product
with `self.pos - o.pos`: it points toward the neighbour. -/
theorem separation_factor_sign (agents : List (Agent ℝ)) (self : Nat) (cursor : Cursor)
    (a : Agent ℝ) :
    (steering Real.sqrt a agents self cursor).cursor_distance =
      vec_length Real.sqrt ((cursor.x : ℝ) - a.x, (cursor.y : ℝ) - a.y) ∧
    (steering Real.sqrt a agents self cursor).separation_factor =
      2 - (steering Real.sqrt a agents self cursor).cursor_distance / SEPARATION_DISTANCE ∧
    (1 < (steering Real.sqrt a agents self cursor).separation_factor ↔
      (steering Real.sqrt a agents self cursor).cursor_distance < SEPARATION_DISTANCE) ∧
    ((steering Real.sqrt a agents self cursor).separation_factor < 0 ↔
      2 * SEPARATION_DISTANCE < (steering Real.sqrt a agents self cursor).cursor_distance) ∧
    (2 * SEPARATION_DISTANCE : ℝ) = 40 ∧
    ∀ o : Agent ℝ, within Real.sqrt a agents self SEPARATION_DISTANCE = [o] →
      (a.x, a.y) ≠ (o.x, o.y) →
      40 < (steering Real.sqrt a agents self cursor).cursor_distance →
      ((steering Real.sqrt a agents self cursor).separation_factor *
          (steering Real.sqrt a agents self cursor).sx) * (a.x - o.x) +
        ((steering Real.sqrt a agents self cursor).separation_factor *
          (steering Real.sqrt a agents self cursor).sy) * (a.y - o.y) < 0 := by
  have hf : (steering Real.sqrt a agents self cursor).separation_factor =
      2 - (steering Real.sqrt a agents self cursor).cursor_distance / SEPARATION_DISTANCE := by
    simp only [steering, steer, SEPARATION_DISTANCE]
    ring
  refine ⟨rfl, hf, ?_, ?_, by norm_num [SEPARATION_DISTANCE], ?_⟩
  · rw [hf]
    simp only [SEPARATION_DISTANCE]
    constructor <;> intro h <;> linarith
  · rw [hf]
    simp only [SEPARATION_DISTANCE]
    constructor <;> intro h <;> linarith
  · intro o hw hne hfar
    obtain ⟨hpos, hx, hy⟩ := single_separation a agents self cursor o hw hne
    have hneg : (steering Real.sqrt a agents self cursor).separation_factor < 0 := by
      rw [hf]
      simp only [SEPARATION_DISTANCE]
      linarith
    have hsq : distance Real.sqrt a o * distance Real.sqrt a o =
        (a.x - o.x) * (a.x - o.x) + (a.y - o.y) * (a.y - o.y) :=
      Real.mul_self_sqrt (add_nonneg (mul_self_nonneg _) (mul_self_nonneg _))
    rw [hx, hy]
    have e : (steering Real.sqrt a agents self cursor).separation_factor *
          ((a.x - o.x) / distance Real.sqrt a o) * (a.x - o.x) +
        (steering Real.sqrt a agents self cursor).separation_factor *
          ((a.y - o.y) / distance Real.sqrt a o) * (a.y - o.y) =
        (steering Real.sqrt a agents self cursor).separation_factor * distance Real.sqrt a o := by
      field_simp
      rw [mul_assoc _ (distance Real.sqrt a o) (distance Real.sqrt a o), hsq]
      ring
    rw [e]
    exact mul_neg_of_neg_of_pos hneg hpos

/-- Witness for the amended C13: `agent_a` at (0,0) with `agent_b` at (10,0) its only neighbour and the
cursor at (50,0), farther than 40: the separation factor is -1/2 and the separation term has
a negative dot product with `agent_a.pos - agent_b.pos`. -/
theorem separation_factor_sign_witness :
    (steering Real.sqrt (agent_a : Agent ℝ) scenario_agents 0 far_cursor).cursor_distance = 50 ∧
    (steering Real.sqrt (agent_a : Agent ℝ) scenario_agents 0 far_cursor).separation_factor =
      -(1 / 2) ∧
    ((steering Real.sqrt (agent_a : Agent ℝ) scenario_agents 0 far_cursor).separation_factor *
        (steering Real.sqrt (agent_a : Agent ℝ) scenario_agents 0 far_cursor).sx) *
          ((agent_a : Agent ℝ).x - (agent_b : Agent ℝ).x) +
      ((steering Real.sqrt (agent_a : Agent ℝ) scenario_agents 0 far_cursor).separation_factor *
        (steering Real.sqrt (agent_a : Agent ℝ) scenario_agents 0 far_cursor).sy) *
          ((agent_a : Agent ℝ).y - (agent_b : Agent ℝ).y) < 0 := by
  have hcd : (steering Real.sqrt (agent_a : Agent ℝ) scenario_agents 0 far_cursor).cursor_distance
      = 50 := by
    norm_num [steering, steer, agent_a, far_cursor, sqrt_2500]
  have hw : within Real.sqrt (agent_a : Agent ℝ) scenario_agents 0 SEPARATION_DISTANCE =
      [agent_b] := by
    norm_num [within_eq_filter, scenario_agents, distance, agent_a, agent_b,
      SEPARATION_DISTANCE, sqrt_100]
  have hne : (((agent_a : Agent ℝ).x, (agent_a : Agent ℝ).y) : ℝ × ℝ) ≠
      ((agent_b : Agent ℝ).x, (agent_b : Agent ℝ).y) := by
    intro h
    have hx := congrArg Prod.fst h
    norm_num [agent_a, agent_b] at hx
  have hthm := separation_factor_sign scenario_agents 0 far_cursor agent_a
  refine ⟨hcd, ?_, hthm.2.2.2.2.2 agent_b hw hne (by rw [hcd]; norm_num)⟩
  rw [hthm.2.1, hcd]
  norm_num [SEPARATION_DISTANCE]

/-- C14 (self is excluded by identity, not by distance): with two agents at indices 0 and 1
on the same position and the cursor on that position, `update_agent` on agent 0 counts agent 1
(and not agent 0 itself) as alignment and cohesion neighbour, so both counts are 1; the
separation, cohesion and attraction vectors are zero, the alignment vector is the velocity of
agent 1, and the velocity written for agent 0 is `clamp (v0 + v1)`. -/
theorem self_excluded_by_identity (a0 a1 : Agent ℝ) (cursor : Cursor)
    (hx : a1.x = a0.x) (hy : a1.y = a0.y)
    (hcx : (cursor.x : ℝ) = a0.x) (hcy : (cursor.y : ℝ) = a0.y) :
    ((scan Real.sqrt a0 [a0, a1] 0).alignment_count = 1 ∧
     (scan Real.sqrt a0 [a0, a1] 0).cohesion_count = 1) ∧
    ((steering Real.sqrt a0 [a0, a1] 0 cursor).sx = 0 ∧
     (steering Real.sqrt a0 [a0, a1] 0 cursor).sy = 0 ∧
     (steering Real.sqrt a0 [a0, a1] 0 cursor).cx = 0 ∧
     (steering Real.sqrt a0 [a0, a1] 0 cursor).cy = 0 ∧
     (steering Real.sqrt a0 [a0, a1] 0 cursor).tx = 0 ∧
     (steering Real.sqrt a0 [a0, a1] 0 cursor).ty = 0) ∧
    ((steering Real.sqrt a0 [a0, a1] 0 cursor).ax = a1.vx ∧
     (steering Real.sqrt a0 [a0, a1] 0 cursor).ay = a1.vy) ∧
    ∃ r, (update_agent Real.sqrt [a0, a1] 0 cursor)[0]? = some r ∧
      (r.vx, r.vy) = spec_clamp Real.sqrt (a0.vx + a1.vx, a0.vy + a1.vy) := by
  have hd : distance Real.sqrt a0 a1 = 0 := by
    simp [distance, hx, hy]
  have hw : ∀ r : ℝ, 0 < r → within Real.sqrt a0 [a0, a1] 0 r = [a1] := by
    intro r hr
    simp [within_eq_filter, hd, hr]
  have wS := hw SEPARATION_DISTANCE (by norm_num [SEPARATION_DISTANCE])
  have wA := hw ALIGNMENT_DISTANCE (by norm_num [ALIGNMENT_DISTANCE])
  have wC := hw COHESION_DISTANCE (by norm_num [COHESION_DISTANCE])
  obtain ⟨-, -, -, -, -, -, h7, h8⟩ := scan_fields Real.sqrt a0 [a0, a1] 0
  rw [wA] at h7
  rw [wC] at h8
  obtain ⟨hS, hA, hC, hT, -⟩ := steering_spec a0 [a0, a1] 0 cursor
  simp only [spec_S, wS, List.map_cons, List.map_nil, List.sum_cons, List.sum_nil, add_zero,
    hx, hy, sub_self, unit_or_zero, if_true, Prod.mk.injEq] at hS
  simp only [spec_A, wA, List.map_cons, List.map_nil, List.sum_cons, List.sum_nil, add_zero,
    List.length_cons, List.length_nil, Nat.cast_one, div_one, Prod.mk.injEq] at hA
  simp only [spec_C, wC, List.map_cons, List.map_nil, List.sum_cons, List.sum_nil, add_zero,
    List.length_cons, List.length_nil, Nat.cast_one, div_one, hx, hy, sub_self, unit_or_zero,
    if_true, Prod.mk.injEq] at hC
  simp only [spec_T, hcx, hcy, sub_self, unit_or_zero, if_true, Prod.mk.injEq] at hT
  norm_num at hA hC
  refine ⟨⟨h7, h8⟩, ⟨hS.1, hS.2, hC.1, hC.2, hT.1, hT.2⟩, ⟨hA.1, hA.2⟩,
    updated Real.sqrt a0 [a0, a1] 0 cursor, ?_, ?_⟩
  · rw [update_agent_getElem?_self]
    rfl
  · unfold updated
    rw [limit_speed_spec]
    simp only [blend, hS.1, hS.2, hC.1, hC.2, hT.1, hT.2, hA.1, hA.2, mul_zero, add_zero,
      zero_add]

/-- Witness for C14: `agent_p` (velocity (1,0)) and `agent_a` (at rest) both at the origin,
cursor at the origin. -/
theorem self_excluded_by_identity_witness :
    ((scan Real.sqrt (agent_p : Agent ℝ) [agent_p, agent_a] 0).alignment_count = 1 ∧
     (scan Real.sqrt (agent_p : Agent ℝ) [agent_p, agent_a] 0).cohesion_count = 1) ∧
    ((steering Real.sqrt (agent_p : Agent ℝ) [agent_p, agent_a] 0 origin).sx = 0 ∧
     (steering Real.sqrt (agent_p : Agent ℝ) [agent_p, agent_a] 0 origin).sy = 0 ∧
     (steering Real.sqrt (agent_p : Agent ℝ) [agent_p, agent_a] 0 origin).cx = 0 ∧
     (steering Real.sqrt (agent_p : Agent ℝ) [agent_p, agent_a] 0 origin).cy = 0 ∧
     (steering Real.sqrt (agent_p : Agent ℝ) [agent_p, agent_a] 0 origin).tx = 0 ∧
     (steering Real.sqrt (agent_p : Agent ℝ) [agent_p, agent_a] 0 origin).ty = 0) ∧
    ((steering Real.sqrt (agent_p : Agent ℝ) [agent_p, agent_a] 0 origin).ax =
        (agent_a : Agent ℝ).vx ∧
     (steering Real.sqrt (agent_p : Agent ℝ) [agent_p, agent_a] 0 origin).ay =
        (agent_a : Agent ℝ).vy) ∧
    ∃ r, (update_agent Real.sqrt ([agent_p, agent_a] : List (Agent ℝ)) 0 origin)[0]? = some r ∧
      (r.vx, r.vy) = spec_clamp Real.sqrt
        ((agent_p : Agent ℝ).vx + (agent_a : Agent ℝ).vx,
         (agent_p : Agent ℝ).vy + (agent_a : Agent ℝ).vy) :=
  self_excluded_by_identity agent_p agent_a origin
    (by simp [agent_p, agent_a]) (by simp [agent_p, agent_a])
    (by simp [agent_p, origin]) (by simp [agent_p, origin])

/-- C15 (amended): in exact real arithmetic, if every agent's position lies in the
closed rectangle `[0, WINDOW_WIDTH] x [0, WINDOW_HEIGHT]` (velocities arbitrary), then after one
full frame (for each index in order, `update_agent` then `move_agent`) the population has the
same size, every agent's position lies in that closed rectangle again, and every agent's speed
is at most `AGENT_SPEED`. -/
theorem tick_invariant (agents : List (Agent ℝ)) (cursor : Cursor)
    (h : ∀ a ∈ agents, (0 ≤ a.x ∧ a.x ≤ (WINDOW_WIDTH : ℝ)) ∧
      (0 ≤ a.y ∧ a.y ≤ (WINDOW_HEIGHT : ℝ))) :
    (tick Real.sqrt agents cursor).length = agents.length ∧
    ∀ r ∈ tick Real.sqrt agents cursor,
      (0 ≤ r.x ∧ r.x ≤ (WINDOW_WIDTH : ℝ)) ∧ (0 ≤ r.y ∧ r.y ≤ (WINDOW_HEIGHT : ℝ)) ∧
      Real.sqrt (r.vx ^ 2 + r.vy ^ 2) ≤ AGENT_SPEED := by
  refine ⟨entry_length Real.sqrt cursor agents agents.length, ?_⟩
  intro r hr
  obtain ⟨i, hi⟩ := List.getElem?_of_mem hr
  rw [(tick_entry Real.sqrt agents cursor i).2] at hi
  cases ha : agents[i]? with
  | none => rw [ha] at hi; cases hi
  | some a =>
    rw [ha, Option.map_some', Option.some.injEq] at hi
    have hmem : a ∈ agents := List.getElem?_mem ha
    obtain ⟨hax, hay⟩ := h a hmem
    rw [window_width_cast] at hax ⊢
    rw [window_height_cast] at hay ⊢
    obtain ⟨ux, uy⟩ := updated_pos Real.sqrt a
      ((tick Real.sqrt agents cursor).take i ++ agents.drop i) i cursor
    have hu := limit_speed_le (blend a (steering Real.sqrt a
      ((tick Real.sqrt agents cursor).take i ++ agents.drop i) i cursor))
    obtain ⟨mx, my, mvx, mvy⟩ := move_agent_closed
      (updated Real.sqrt a ((tick Real.sqrt agents cursor).take i ++ agents.drop i) i cursor)
      (by rw [ux]; exact hax) (by rw [uy]; exact hay) hu
    rw [← hi]
    refine ⟨mx, my, ?_⟩
    rw [mvx, mvy]
    simpa [updated, AGENT_SPEED, pow_two] using hu

/-- Witness for the amended C15: `barrier_agents` (positions (0,0) and (100,0)) with the cursor at the
origin. -/
theorem tick_invariant_witness :
    (tick Real.sqrt (barrier_agents : List (Agent ℝ)) origin).length =
      (barrier_agents : List (Agent ℝ)).length ∧
    ∀ r ∈ tick Real.sqrt (barrier_agents : List (Agent ℝ)) origin,
      (0 ≤ r.x ∧ r.x ≤ (WINDOW_WIDTH : ℝ)) ∧ (0 ≤ r.y ∧ r.y ≤ (WINDOW_HEIGHT : ℝ)) ∧
      Real.sqrt (r.vx ^ 2 + r.vy ^ 2) ≤ AGENT_SPEED :=
  tick_invariant barrier_agents origin (by
    intro a ha
    simp only [barrier_agents, List.mem_cons, List.mem_singleton, List.not_mem_nil,
      or_false] at ha
    rcases ha with rfl | rfl <;>
      norm_num [agent_p, agent_q, window_width_cast, window_height_cast])

/-- C17 (initial state): for every sequence of non-negative `rand()` results, the
initialiser creates `AGENT_COUNT` agents, each with integer-valued position with
`0 ≤ x < WINDOW_WIDTH` and `0 ≤ y < WINDOW_HEIGHT`, each velocity component of the form `k/50`
for an integer `-50 ≤ k ≤ 49`, hence in `[-1, 1)`, and speed strictly below `AGENT_SPEED`. -/
theorem init_bounds (rand : Nat → Int) (hr : ∀ n, 0 ≤ rand n) :
    (init_agents rand : List (Agent ℝ)).length = AGENT_COUNT ∧
    ∀ a ∈ (init_agents rand : List (Agent ℝ)),
      (∃ m n : Int, a.x = (m : ℝ) ∧ a.y = (n : ℝ) ∧
        0 ≤ m ∧ m < WINDOW_WIDTH ∧ 0 ≤ n ∧ n < WINDOW_HEIGHT) ∧
      (0 ≤ a.x ∧ a.x < (WINDOW_WIDTH : ℝ) ∧ 0 ≤ a.y ∧ a.y < (WINDOW_HEIGHT : ℝ)) ∧
      (∃ k l : Int, a.vx = (k : ℝ) / 50 ∧ a.vy = (l : ℝ) / 50 ∧
        -50 ≤ k ∧ k ≤ 49 ∧ -50 ≤ l ∧ l ≤ 49) ∧
      (-1 ≤ a.vx ∧ a.vx < 1 ∧ -1 ≤ a.vy ∧ a.vy < 1) ∧
      Real.sqrt (a.vx ^ 2 + a.vy ^ 2) < AGENT_SPEED := by
  refine ⟨by simp [init_agents], ?_⟩
  intro a ha
  simp only [init_agents, List.mem_map] at ha
  obtain ⟨i, -, rfl⟩ := ha
  exact init_agent_bounds _ _ _ _ (hr _) (hr _) (hr _) (hr _)

/-- Witness for C17: the `rand()` that always returns 0, which puts every agent at (0,0)
with velocity (-1,-1). -/
theorem init_bounds_witness :
    (init_agents zero_rand : List (Agent ℝ)).length = AGENT_COUNT ∧
    ∀ a ∈ (init_agents zero_rand : List (Agent ℝ)),
      (∃ m n : Int, a.x = (m : ℝ) ∧ a.y = (n : ℝ) ∧
        0 ≤ m ∧ m < WINDOW_WIDTH ∧ 0 ≤ n ∧ n < WINDOW_HEIGHT) ∧
      (0 ≤ a.x ∧ a.x < (WINDOW_WIDTH : ℝ) ∧ 0 ≤ a.y ∧ a.y < (WINDOW_HEIGHT : ℝ)) ∧
      (∃ k l : Int, a.vx = (k : ℝ) / 50 ∧ a.vy = (l : ℝ) / 50 ∧
        -50 ≤ k ∧ k ≤ 49 ∧ -50 ≤ l ∧ l ≤ 49) ∧
      (-1 ≤ a.vx ∧ a.vx < 1 ∧ -1 ≤ a.vy ∧ a.vy < 1) ∧
      Real.sqrt (a.vx ^ 2 + a.vy ^ 2) < AGENT_SPEED :=
  init_bounds zero_rand (fun _ => le_refl 0)

set_option maxRecDepth 1000000

/-! The program evaluated in binary32 at concrete inputs -/

/-- The encoded `AGENT_SPEED`, `SEPARATION_DISTANCE` and `COHESION_DISTANCE` are 2, 20 and 100,
and `1.55f` is 13002342 / 2^23 = 1.5499999523162842. -/
theorem constants32 :
    AGENT_SPEED32 = enc 2 149 ∧ SEPARATION_DISTANCE32 = enc 20 149 ∧
    ALIGNMENT_DISTANCE32 = enc 50 149 ∧ COHESION_DISTANCE32 = enc 100 149 ∧
    CURSOR_ATTRACTION_FACTOR32 = enc 6501171 127 := by decide

/-- In binary32 `-2^-17 + 1900` rounds to 1900 and `-2^-17 + 1200` to 1200, and the tests
`x > WINDOW_WIDTH`, `y > WINDOW_HEIGHT` do not fire: the agent is left on both far edges. -/
theorem creep_move32 :
    move_agent32 creep32 = ⟨enc 1900 149, enc 1200 149, enc (-1) 132, enc (-1) 132⟩ := by
  decide

/-- The binary32 distance between `near_a` and `near_o` is 99.99999237060547, below
`COHESION_DISTANCE`. -/
theorem near_distance32 :
    distance32 near_a near_o = enc 13107199 132 ∧
    distance32 near_a near_o < COHESION_DISTANCE32 := by decide

theorem near_steering32 :
    steering32 near_a [near_a, near_o] 0 ⟨100, 0⟩ =
      { sx := 0, sy := 0, ax := 0, ay := 0, cx := enc (-8379467) 126, cy := enc 12528583 121,
        tx := 0, ty := 0, cursor_distance := 0, separation_factor := enc 2 149 } := by
  decide

theorem near_update32 :
    update_agent32 [near_a, near_o] 0 ⟨100, 0⟩ =
      [⟨enc 100 149, 0, enc 9141 126, enc 12528583 121⟩, near_o] := by decide

/-- The binary32 distance between `pair_p` and `pair_q` is exactly 20.0, not below
`SEPARATION_DISTANCE`. -/
theorem pair_distance32 :
    distance32 pair_p pair_q = enc 20 149 ∧ distance32 pair_q pair_p = enc 20 149 ∧
    ¬ distance32 pair_p pair_q < SEPARATION_DISTANCE32 := by decide

theorem pair_steering32 :
    (steering32 pair_p [pair_p, pair_q] 0 ⟨0, 0⟩).sx = 0 ∧
    (steering32 pair_p [pair_p, pair_q] 0 ⟨0, 0⟩).sy = 0 ∧
    (steering32 pair_q [pair_p, pair_q] 1 ⟨0, 0⟩).sx = 0 ∧
    (steering32 pair_q [pair_p, pair_q] 1 ⟨0, 0⟩).sy = 0 := by decide

theorem pair_far_steering32 :
    steering32 pair_p [pair_p, pair_q] 0 ⟨50, 0⟩ =
      { sx := 0, sy := 0, ax := 0, ay := 0, cx := enc 5033165 126, cy := enc 3355443 127,
        tx := enc 1 149, ty := 0, cursor_distance := enc 50 149,
        separation_factor := enc (-1) 148 } := by
  decide

theorem fast_blend32 :
    blend32 fast32 (steering32 fast32 [fast32] 0 ⟨0, 0⟩) = fast32 := by decide

theorem fast_update32 :
    update_agent32 [fast32] 0 ⟨0, 0⟩ = [⟨0, 0, enc 5033165 127, enc 13421773 126⟩] := by decide

theorem swift_tick32 :
    tick32 [swift32] ⟨100, 100⟩ =
      [⟨enc 98 149, enc 3276867 134, enc (-16777209) 126, enc 8780633 117⟩] := by decide

/-- The program's own `sqrtf` of the velocity it stored for `swift32` is 2.000000238418579. -/
theorem swift_speed32 :
    fsqrt (fadd (fmul (enc (-16777209) 126) (enc (-16777209) 126))
      (fmul (enc 8780633 117) (enc 8780633 117))) = enc 8388609 127 ∧
    enc 8388609 127 > AGENT_SPEED32 := by decide

/-! Exact facts about the decoded binary32 inputs -/

theorem sqrt_ne_of_ne_sq (q y : ℝ) (hq : 0 ≤ q) (hy : 0 ≤ y) (h : q ≠ y * y) :
    Real.sqrt q ≠ y := by
  intro he
  exact h ((Real.sqrt_eq_iff_mul_self_eq hq hy).mp he)

/-- The exact Euclidean distance between `near_a` and `near_o` is at least
`COHESION_DISTANCE` (its square exceeds 10000 by about 2.4e-6). -/
theorem near_far_exact :
    COHESION_DISTANCE ≤ euclid Real.sqrt (decode near_a) (decode near_o) := by
  simp only [euclid, decode, value, near_a, near_o, enc, COHESION_DISTANCE]
  rw [Real.le_sqrt (by norm_num) (by positivity)]
  norm_num

/-- The exact Euclidean distance between `pair_p` and `pair_q` is positive and below
`SEPARATION_DISTANCE`. -/
theorem pair_near_exact :
    0 < euclid Real.sqrt (decode pair_p) (decode pair_q) ∧
    euclid Real.sqrt (decode pair_p) (decode pair_q) < SEPARATION_DISTANCE := by
  simp only [euclid, decode, value, pair_p, pair_q, enc, SEPARATION_DISTANCE]
  constructor
  · rw [Real.sqrt_pos]
    norm_num
  · rw [Real.sqrt_lt' (by norm_num)]
    norm_num

theorem pair_distinct :
    (((decode pair_p : Agent ℝ).x, (decode pair_p : Agent ℝ).y) : ℝ × ℝ) ≠
      ((decode pair_q : Agent ℝ).x, (decode pair_q : Agent ℝ).y) := by
  intro h
  have hx := congrArg Prod.fst h
  norm_num [decode, value, pair_p, pair_q, enc] at hx

/-- The claimed velocity formula, with exact Euclidean distances, at `near_a`: no agent is within
any radius and the cursor is on the agent, so the formula gives the old velocity (1,0). -/
theorem near_spec_velocity :
    spec_velocity Real.sqrt (decode near_a) [decode near_a, decode near_o] 0 ⟨100, 0⟩ =
      (1, 0) := by
  have hfar : ∀ j o, j ≠ 0 → ([decode near_a, decode near_o] : List (Agent ℝ))[j]? = some o →
      COHESION_DISTANCE ≤ distance Real.sqrt (decode near_a) o := by
    intro j o hj h
    match j, hj, h with
    | 1, _, h =>
      simp only [List.getElem?_cons_succ, List.getElem?_cons_zero, Option.some.injEq] at h
      rw [← h, distance_eq_euclid]
      exact near_far_exact
    | (k + 2), _, h => simp at h
  have nS := within_eq_nil (decode near_a) [decode near_a, decode near_o] 0
    SEPARATION_DISTANCE (by norm_num [SEPARATION_DISTANCE, COHESION_DISTANCE]) hfar
  have nA := within_eq_nil (decode near_a) [decode near_a, decode near_o] 0
    ALIGNMENT_DISTANCE (by norm_num [ALIGNMENT_DISTANCE, COHESION_DISTANCE]) hfar
  have nC := within_eq_nil (decode near_a) [decode near_a, decode near_o] 0
    COHESION_DISTANCE le_rfl hfar
  simp only [spec_velocity, spec_S, spec_A, spec_C, nS, nA, nC, List.map_nil, List.sum_nil,
    List.length_nil, if_true, unit_or_zero]
  norm_num [spec_T, spec_f, spec_clamp, unit_or_zero, vec_length, decode, value, near_a, enc,
    AGENT_SPEED, SEPARATION_DISTANCE, CURSOR_ATTRACTION_FACTOR]

/-! Claims that hold in exact arithmetic but not of the program in binary32 -/

/-- C3, as stated, fails of the program in binary32: for `near_a` at (100,0) with velocity
(1,0), `near_o` at exact Euclidean distance just above 100 and the cursor on `near_a`, the
claimed formula (Euclidean distance, exact arithmetic) gives the velocity (1,0), while the
program computes the distance 99.99999, counts `near_o` as a cohesion neighbour and writes
the velocity (0.00109, 0.0467). -/
theorem velocity_rule_fails :
    spec_velocity Real.sqrt (decode near_a) [decode near_a, decode near_o] 0 ⟨100, 0⟩ =
      (1, 0) ∧
    update_agent32 [near_a, near_o] 0 ⟨100, 0⟩ =
      [⟨enc 100 149, 0, enc 9141 126, enc 12528583 121⟩, near_o] ∧
    (((value (enc 9141 126) : ℝ), (value (enc 12528583 121) : ℝ)) : ℝ × ℝ) ≠
      spec_velocity Real.sqrt (decode near_a) [decode near_a, decode near_o] 0 ⟨100, 0⟩ := by
  refine ⟨near_spec_velocity, near_update32, ?_⟩
  rw [near_spec_velocity]
  intro h
  have hy := congrArg Prod.snd h
  norm_num [value, enc] at hy

/-- C8, as stated, fails of the program in binary32: `near_a` has speed 1, the only other
agent is at exact Euclidean distance at least `COHESION_DISTANCE`, and the cursor is on
`near_a`; yet the program computes the distance 99.99999 < 100, a non-zero cohesion vector,
and changes the velocity from (1,0) to (0.00109, 0.0467). -/
theorem zero_neighbour_stability_fails :
    (Real.sqrt ((decode near_a : Agent ℝ).vx ^ 2 + (decode near_a : Agent ℝ).vy ^ 2) ≤
        AGENT_SPEED ∧
     COHESION_DISTANCE ≤ euclid Real.sqrt (decode near_a) (decode near_o) ∧
     ((100 : Int) : ℝ) = (decode near_a : Agent ℝ).x ∧
     ((0 : Int) : ℝ) = (decode near_a : Agent ℝ).y) ∧
    distance32 near_a near_o < COHESION_DISTANCE32 ∧
    (steering32 near_a [near_a, near_o] 0 ⟨100, 0⟩).cx ≠ 0 ∧
    (update_agent32 [near_a, near_o] 0 ⟨100, 0⟩)[0]? =
      some ⟨enc 100 149, 0, enc 9141 126, enc 12528583 121⟩ ∧
    (value (enc 9141 126) : ℝ) ≠ (decode near_a : Agent ℝ).vx := by
  refine ⟨⟨?_, near_far_exact, ?_, ?_⟩, near_distance32.2, ?_, ?_, ?_⟩
  · norm_num [decode, value, near_a, enc, AGENT_SPEED]
  · norm_num [decode, value, near_a, enc]
  · norm_num [decode, value, near_a, enc]
  · rw [near_steering32]
    decide
  · rw [near_update32]
    rfl
  · norm_num [decode, value, near_a, enc]

/-- C10, as stated, fails of the program in binary32: `pair_p` at (0,0) and `pair_q` at
(12, 16 - 2^-20) are at distinct positions with exact Euclidean distance below
`SEPARATION_DISTANCE`, but the program computes the distance 20.0, which is not below
`SEPARATION_DISTANCE`, so the separation vector of both agents is (0,0): not a unit vector,
and not `(self.pos - other.pos) / d`. -/
theorem separation_direction_fails :
    ((((decode pair_p : Agent ℝ).x, (decode pair_p : Agent ℝ).y) : ℝ × ℝ) ≠
        ((decode pair_q : Agent ℝ).x, (decode pair_q : Agent ℝ).y) ∧
     euclid Real.sqrt (decode pair_p) (decode pair_q) < SEPARATION_DISTANCE) ∧
    ¬ distance32 pair_p pair_q < SEPARATION_DISTANCE32 ∧
    ((steering32 pair_p [pair_p, pair_q] 0 ⟨0, 0⟩).sx = 0 ∧
     (steering32 pair_p [pair_p, pair_q] 0 ⟨0, 0⟩).sy = 0 ∧
     (steering32 pair_q [pair_p, pair_q] 1 ⟨0, 0⟩).sx = 0 ∧
     (steering32 pair_q [pair_p, pair_q] 1 ⟨0, 0⟩).sy = 0) ∧
    (value (steering32 pair_p [pair_p, pair_q] 0 ⟨0, 0⟩).sx : ℝ) ^ 2 +
      (value (steering32 pair_p [pair_p, pair_q] 0 ⟨0, 0⟩).sy : ℝ) ^ 2 ≠ 1 ∧
    (value (steering32 pair_p [pair_p, pair_q] 0 ⟨0, 0⟩).sx : ℝ) ≠
      ((decode pair_p : Agent ℝ).x - (decode pair_q : Agent ℝ).x) /
        euclid Real.sqrt (decode pair_p) (decode pair_q) := by
  obtain ⟨h1, h2, h3, h4⟩ := pair_steering32
  refine ⟨⟨pair_distinct, pair_near_exact.2⟩, pair_distance32.2.2, ⟨h1, h2, h3, h4⟩, ?_, ?_⟩
  · rw [h1, h2]
    norm_num [value]
  · rw [h1]
    have hpos := pair_near_exact.1
    have hne : euclid Real.sqrt (decode pair_p) (decode pair_q) ≠ 0 := ne_of_gt hpos
    intro h
    have h0 : (value 0 : ℝ) = 0 := by norm_num [value]
    rw [h0] at h
    have hnum := (div_eq_zero_iff.mp h.symm).resolve_right hne
    norm_num [decode, value, pair_p, pair_q, enc] at hnum

/-- C13's consequence, as stated, fails of the program in binary32: for `pair_p` exactly one
other agent (`pair_q`, at a distinct position) is within `SEPARATION_DISTANCE` in exact
Euclidean distance and the cursor (50,0) is farther than 40, but the program computes the
distance 20.0, so its separation vector is (0,0) and the separation term
`separation_factor * S` (factor -0.5) is zero: its dot product with `self.pos - other.pos` is
not negative. -/
theorem separation_factor_sign_fails :
    (within Real.sqrt (decode pair_p) [decode pair_p, decode pair_q] 0 SEPARATION_DISTANCE =
        [decode pair_q] ∧
     (((decode pair_p : Agent ℝ).x, (decode pair_p : Agent ℝ).y) : ℝ × ℝ) ≠
        ((decode pair_q : Agent ℝ).x, (decode pair_q : Agent ℝ).y) ∧
     40 < vec_length Real.sqrt
        (((50 : Int) : ℝ) - (decode pair_p : Agent ℝ).x,
         ((0 : Int) : ℝ) - (decode pair_p : Agent ℝ).y)) ∧
    ((steering32 pair_p [pair_p, pair_q] 0 ⟨50, 0⟩).cursor_distance = enc 50 149 ∧
     (steering32 pair_p [pair_p, pair_q] 0 ⟨50, 0⟩).separation_factor = enc (-1) 148 ∧
     (steering32 pair_p [pair_p, pair_q] 0 ⟨50, 0⟩).sx = 0 ∧
     (steering32 pair_p [pair_p, pair_q] 0 ⟨50, 0⟩).sy = 0) ∧
    ¬ ((value (fmul (steering32 pair_p [pair_p, pair_q] 0 ⟨50, 0⟩).separation_factor
            (steering32 pair_p [pair_p, pair_q] 0 ⟨50, 0⟩).sx) : ℝ) *
          ((decode pair_p : Agent ℝ).x - (decode pair_q : Agent ℝ).x) +
        (value (fmul (steering32 pair_p [pair_p, pair_q] 0 ⟨50, 0⟩).separation_factor
            (steering32 pair_p [pair_p, pair_q] 0 ⟨50, 0⟩).sy) : ℝ) *
          ((decode pair_p : Agent ℝ).y - (decode pair_q : Agent ℝ).y) < 0) := by
  have hw : within Real.sqrt (decode pair_p) [decode pair_p, decode pair_q] 0
      SEPARATION_DISTANCE = [decode pair_q] := by
    simp [within, pair_near_exact.2]
  have hz : fmul (enc (-1) 148) 0 = 0 := by decide
  refine ⟨⟨hw, pair_distinct, ?_⟩, ?_, ?_⟩
  · norm_num [vec_length, decode, value, pair_p, sqrt_2500]
  · rw [pair_far_steering32]
    exact ⟨rfl, rfl, rfl, rfl⟩
  · rw [pair_far_steering32]
    simp only [hz]
    norm_num [value]

/-- C11, as stated, fails of the program in binary32: for the single agent `fast32` with
velocity (3,4) and the cursor on it the blended velocity is `w = (3,4)` with `|w| = 5 >
AGENT_SPEED`, and the program stores (1.2000000476837158, 1.600000023841858), which is not
`(AGENT_SPEED / |w|) * w = (6/5, 8/5)` and whose length is not exactly `AGENT_SPEED`. -/
theorem clamp_exact_fails :
    (blend32 fast32 (steering32 fast32 [fast32] 0 ⟨0, 0⟩) = fast32 ∧
     (value fast32.vx : ℝ) = 3 ∧ (value fast32.vy : ℝ) = 4 ∧
     vec_length Real.sqrt ((3 : ℝ), (4 : ℝ)) = 5) ∧
    update_agent32 [fast32] 0 ⟨0, 0⟩ = [⟨0, 0, enc 5033165 127, enc 13421773 126⟩] ∧
    (value (enc 5033165 127) : ℝ) ≠ AGENT_SPEED / vec_length Real.sqrt ((3 : ℝ), (4 : ℝ)) * 3 ∧
    vec_length Real.sqrt ((value (enc 5033165 127) : ℝ), (value (enc 13421773 126) : ℝ)) ≠
      AGENT_SPEED := by
  have h5 : vec_length Real.sqrt ((3 : ℝ), (4 : ℝ)) = 5 := by
    norm_num [vec_length, sqrt_25]
  refine ⟨⟨fast_blend32, ?_, ?_, h5⟩, fast_update32, ?_, ?_⟩
  · norm_num [value, fast32, enc]
  · norm_num [value, fast32, enc]
  · rw [h5]
    norm_num [value, enc, AGENT_SPEED]
  · simp only [vec_length, AGENT_SPEED]
    apply sqrt_ne_of_ne_sq _ _ (add_nonneg (mul_self_nonneg _) (mul_self_nonneg _))
      (by norm_num)
    norm_num [value, enc]

/-- C15, as stated, fails of the program in binary32: the single agent `swift32` is at
(100,100), inside the closed rectangle, and the cursor is on it; after one frame its velocity
is (-1.9999991655349731, 0.0020444004330784082), whose exact speed exceeds `AGENT_SPEED`
(the squared speed exceeds 4 by about 8.4e-7) and whose speed by the program's own `sqrtf`
is 2.000000238418579 > 2. -/
theorem tick_invariant_fails :
    ((0 ≤ (decode swift32 : Agent ℝ).x ∧ (decode swift32 : Agent ℝ).x ≤ (WINDOW_WIDTH : ℝ)) ∧
     (0 ≤ (decode swift32 : Agent ℝ).y ∧ (decode swift32 : Agent ℝ).y ≤ (WINDOW_HEIGHT : ℝ))) ∧
    tick32 [swift32] ⟨100, 100⟩ =
      [⟨enc 98 149, enc 3276867 134, enc (-16777209) 126, enc 8780633 117⟩] ∧
    ¬ Real.sqrt ((value (enc (-16777209) 126) : ℝ) ^ 2 + (value (enc 8780633 117) : ℝ) ^ 2) ≤
        AGENT_SPEED ∧
    fsqrt (fadd (fmul (enc (-16777209) 126) (enc (-16777209) 126))
      (fmul (enc 8780633 117) (enc 8780633 117))) > AGENT_SPEED32 := by
  refine ⟨⟨⟨?_, ?_⟩, ⟨?_, ?_⟩⟩, swift_tick32, ?_, ?_⟩
  · norm_num [decode, value, swift32, enc]
  · norm_num [decode, value, swift32, enc, window_width_cast]
  · norm_num [decode, value, swift32, enc]
  · norm_num [decode, value, swift32, enc, window_height_cast]
  · rw [not_le]
    simp only [AGENT_SPEED]
    rw [Real.lt_sqrt (by norm_num)]
    norm_num [value, enc]
  · rw [swift_speed32.1]
    exact swift_speed32.2

end Flocking
